import Mathlib

/-!
Verification of the authentication and session-token subsystem of the
finance-planner backend (src/backend/auth/index.py and
src/backend/user-auth/index.py).

Modelling conventions, fixed throughout this file:

* Byte strings are `List Nat` with every element below 256.
* `hmac.new(secret.encode(), message.encode(), hashlib.sha256).digest()` from
  the Python standard library is external to the repository; it is abstracted
  as an explicit parameter `mac : String → String → List Nat` threaded through
  every definition that signs or verifies.  Distinctness of MACs under
  distinct secrets is a cryptographic assumption and appears as an explicit
  hypothesis where a theorem needs it.
* `bcrypt.hashpw` (external library, salted and nondeterministic) is
  abstracted as a parameter `hashFn : String → String`.
* The wall clock `time.time()` is modelled as a `Nat` of Unix seconds; a
  single handler invocation reads one ambient clock value `now`.
* JSON is modelled on the flat-object subset the token subsystem produces
  and consumes: objects whose members are strings, integers, booleans or
  null, plus top-level scalars.  Nested containers and floating-point
  literals are outside the model and are treated as parse failures.
* Python exceptions are modelled with `Except String`; a value constructed
  with `Except.error` marks a point where the Python code raises.
-/

set_option maxRecDepth 100000

namespace FinApp

/-! ## Base64url, modelling `base64.urlsafe_b64encode` / `urlsafe_b64decode`

Encoding takes 3-byte groups to 4 alphabet characters with `=` padding;
`.rstrip('=')` is modelled by `rstripEq`.  CPython's non-strict decoder
(`binascii.a2b_base64`) discards characters outside the alphabet, stops the
data at the first `=`, and raises `binascii.Error: Incorrect padding` when
the final quantum is a single character or lacks its padding. -/

/-- The base64url alphabet character for a 6-bit value. -/
def b64Chr (n : Nat) : Char :=
  if n < 26 then Char.ofNat (65 + n)
  else if n < 52 then Char.ofNat (97 + (n - 26))
  else if n < 62 then Char.ofNat (48 + (n - 52))
  else if n = 62 then Char.ofNat 45
  else Char.ofNat 95

/-- The 6-bit value of an alphabet character.  `urlsafe_b64decode` first
translates `-`/`_` to `+`/`/` and then decodes with the standard alphabet,
so `+` and `/` are accepted as well.  Non-alphabet characters never reach
this function (the decoder discards them first); they map to 0. -/
def b64Val (c : Char) : Nat :=
  let n := c.toNat
  if 65 ≤ n ∧ n ≤ 90 then n - 65
  else if 97 ≤ n ∧ n ≤ 122 then n - 97 + 26
  else if 48 ≤ n ∧ n ≤ 57 then n - 48 + 52
  else if n = 45 ∨ n = 43 then 62
  else 63

/-- Is the character in the accepted base64 alphabet? -/
def b64IsAlpha (c : Char) : Bool :=
  let n := c.toNat
  (65 ≤ n && n ≤ 90) || (97 ≤ n && n ≤ 122) || (48 ≤ n && n ≤ 57) ||
  n = 45 || n = 95 || n = 43 || n = 47

/-- `base64.urlsafe_b64encode`: 3-byte groups to 4 characters, `=`-padded. -/
def encB64 : List Nat → List Char
  | [] => []
  | [a] => [b64Chr (a / 4), b64Chr (a % 4 * 16), '=', '=']
  | [a, b] => [b64Chr (a / 4), b64Chr (a % 4 * 16 + b / 16), b64Chr (b % 16 * 4), '=']
  | a :: b :: c :: t =>
      b64Chr (a / 4) :: b64Chr (a % 4 * 16 + b / 16) ::
      b64Chr (b % 16 * 4 + c / 64) :: b64Chr (c % 64) :: encB64 t

/-- Python's `str.rstrip('=')`. -/
def rstripEq (l : List Char) : List Char :=
  (l.reverse.dropWhile (fun c => c = '=')).reverse

/-- Base64url encoding with the `=` padding already stripped (the composition
`.rstrip('=')` ∘ `urlsafe_b64encode` used at every call site). -/
def encB64NP : List Nat → List Char
  | [] => []
  | [a] => [b64Chr (a / 4), b64Chr (a % 4 * 16)]
  | [a, b] => [b64Chr (a / 4), b64Chr (a % 4 * 16 + b / 16), b64Chr (b % 16 * 4)]
  | a :: b :: c :: t =>
      b64Chr (a / 4) :: b64Chr (a % 4 * 16 + b / 16) ::
      b64Chr (b % 16 * 4 + c / 64) :: b64Chr (c % 64) :: encB64NP t

/-- Decode a run of alphabet characters in 4-character quanta; a trailing
quantum of 2 or 3 characters yields 1 or 2 bytes.  Length validity has been
checked by the caller; a lone trailing character yields nothing here. -/
def decQuads : List Char → List Nat
  | c0 :: c1 :: c2 :: c3 :: t =>
      (b64Val c0 * 4 + b64Val c1 / 16) ::
      (b64Val c1 % 16 * 16 + b64Val c2 / 4) ::
      (b64Val c2 % 4 * 64 + b64Val c3) :: decQuads t
  | [c0, c1] => [b64Val c0 * 4 + b64Val c1 / 16]
  | [c0, c1, c2] =>
      [b64Val c0 * 4 + b64Val c1 / 16, b64Val c1 % 16 * 16 + b64Val c2 / 4]
  | _ => []

/-- `base64.urlsafe_b64decode` in CPython's default non-strict mode:
discard characters outside the alphabet, end the data at the first `=`,
require the final quantum to be completable, and decode. -/
def decB64 (l : List Char) : Except String (List Nat) :=
  let kept := l.filter (fun c => b64IsAlpha c || c = '=')
  let d := kept.takeWhile (fun c => c ≠ '=')
  let pads := (kept.dropWhile (fun c => c ≠ '=')).countP (fun c => c = '=')
  let r := d.length % 4
  if r = 1 then Except.error ("Incorrect padding")
  else if r = 2 ∧ pads < 2 then Except.error ("Incorrect padding")
  else if r = 3 ∧ pads < 1 then Except.error ("Incorrect padding")
  else Except.ok (decQuads d)

/-- The padding restoration both verifiers perform before decoding a
segment: `s += '=' * (4 - len(s) % 4)` (note: four `=` when the length is
already a multiple of four). -/
def padRestore (l : List Char) : List Char :=
  l ++ List.replicate (4 - l.length % 4) '='

/-! ## UTF-8, modelling `str.encode()` / `bytes.decode()` -/

/-- UTF-8 encoding of one code point. -/
def utf8Enc (c : Nat) : List Nat :=
  if c < 0x80 then [c]
  else if c < 0x800 then [0xC0 + c / 64, 0x80 + c % 64]
  else if c < 0x10000 then [0xE0 + c / 4096, 0x80 + c / 64 % 64, 0x80 + c % 64]
  else [0xF0 + c / 262144, 0x80 + c / 4096 % 64, 0x80 + c / 64 % 64, 0x80 + c % 64]

/-- `str.encode()`: UTF-8 bytes of a character list. -/
def listBytes : List Char → List Nat
  | [] => []
  | c :: t => utf8Enc c.toNat ++ listBytes t

/-- `str.encode()` on a `String`. -/
def strBytes (s : String) : List Nat := listBytes s.data

/-- Is `b` a UTF-8 continuation byte? -/
def utf8Cont (b : Nat) : Bool := 0x80 ≤ b && b ≤ 0xBF

/-- Prepend the character of a decoded code point to the decoded tail. -/
def consDecoded (c : Nat) (r : Except String (List Char)) : Except String (List Char) :=
  match r with
  | Except.ok s => Except.ok (Char.ofNat c :: s)
  | Except.error e => Except.error e

/-- The valid second-byte range of a 3-byte sequence (excludes overlong
forms after `0xE0` and surrogates after `0xED`). -/
def utf8Mid (b0 b1 : Nat) : Bool :=
  if b0 = 0xE0 then 0xA0 ≤ b1 && b1 ≤ 0xBF
  else if b0 = 0xED then 0x80 ≤ b1 && b1 ≤ 0x9F
  else utf8Cont b1

/-- The valid second-byte range of a 4-byte sequence (excludes overlong
forms after `0xF0` and planes beyond Unicode after `0xF4`). -/
def utf8Hi (b0 b1 : Nat) : Bool :=
  if b0 = 0xF0 then 0x90 ≤ b1 && b1 ≤ 0xBF
  else if b0 = 0xF4 then 0x80 ≤ b1 && b1 ≤ 0x8F
  else utf8Cont b1

/-- One step of strict UTF-8 decoding: the code point led by `b0` and the
remaining bytes, or `none` on malformed input, overlong forms and
surrogates. -/
def utf8Step (b0 : Nat) (t0 : List Nat) : Option (Nat × List Nat) :=
  if b0 < 0x80 then some (b0, t0)
  else if b0 < 0xC2 then none
  else if b0 ≤ 0xDF then
    match t0 with
    | b1 :: t1 => if utf8Cont b1 then some ((b0 - 0xC0) * 64 + (b1 - 0x80), t1) else none
    | [] => none
  else if b0 ≤ 0xEF then
    match t0 with
    | b1 :: b2 :: t2 =>
      if utf8Mid b0 b1 && utf8Cont b2 then
        some ((b0 - 0xE0) * 4096 + (b1 - 0x80) * 64 + (b2 - 0x80), t2)
      else none
    | _ => none
  else if b0 ≤ 0xF4 then
    match t0 with
    | b1 :: b2 :: b3 :: t3 =>
      if utf8Hi b0 b1 && utf8Cont b2 && utf8Cont b3 then
        some ((b0 - 0xF0) * 262144 + (b1 - 0x80) * 4096 + (b2 - 0x80) * 64 + (b3 - 0x80), t3)
      else none
    | _ => none
  else none

/-- Iterated decoding; `fuel` bounds the number of characters and the
entry point supplies the byte count, which always suffices because every
step consumes at least one byte. -/
def utf8DecF : Nat → List Nat → Except String (List Char)
  | _, [] => Except.ok []
  | 0, _ :: _ => Except.error ("UnicodeDecodeError")
  | Nat.succ f, b0 :: t0 =>
    match utf8Step b0 t0 with
    | some (c, t1) => consDecoded c (utf8DecF f t1)
    | none => Except.error ("UnicodeDecodeError")

/-- `bytes.decode()`: strict UTF-8 decoding, raising `UnicodeDecodeError`
(modelled as `Except.error`) on malformed input, overlong forms and
surrogates. -/
def utf8Dec (l : List Nat) : Except String (List Char) := utf8DecF l.length l

/-! ## JSON, modelling `json.dumps` / `json.loads` on the flat-object subset

Python dict semantics: assigning to a key keeps the position of its first
occurrence and replaces the value (`pySet`); `dict.get` reads the value
(`dictGet`).  `json.dumps` uses the default separators `', '` and `': '`;
with `ensure_ascii=True` every character at or above `0x7F` is written as a
`\uxxxx` escape. -/

/-- A scalar JSON value (the flat subset: no nested containers, no floats). -/
inductive JVal where
  | jstr : String → JVal
  | jint : Int → JVal
  | jbool : Bool → JVal
  | jnull : JVal
deriving DecidableEq

/-- A flat JSON object as an association list in insertion order. -/
abbrev JObj := List (String × JVal)

/-- A parsed top-level JSON value: an object or a bare scalar. -/
inductive JTop where
  | obj : JObj → JTop
  | scalar : JVal → JTop
deriving DecidableEq

/-- Python dict assignment `d[k] = v`: replace the value at the first
occurrence of the key, keeping its position, or append a new entry. -/
def pySet : JObj → String → JVal → JObj
  | [], k, v => [(k, v)]
  | (k0, v0) :: t, k, v =>
      if k0 = k then (k, v) :: t else (k0, v0) :: pySet t k v

/-- Python `dict.get(k)`: the value stored at the key, if any. -/
def dictGet : JObj → String → Option JVal
  | [], _ => none
  | (k0, v0) :: t, k => if k0 = k then some v0 else dictGet t k

/-- The lowercase hexadecimal digit for a value below 16. -/
def hexChr (n : Nat) : Char :=
  if n < 10 then Char.ofNat (48 + n) else Char.ofNat (87 + n)

/-- A four-digit lowercase `\uxxxx` escape body. -/
def hex4 (n : Nat) : List Char :=
  [hexChr (n / 4096 % 16), hexChr (n / 256 % 16), hexChr (n / 16 % 16), hexChr (n % 16)]

/-- `json.dumps` escaping of one character inside a string literal.  With
`ascii` set, characters at or above `0x7F` become `\uxxxx` escapes
(a surrogate pair above `0xFFFF`). -/
def escChar (ascii : Bool) (c : Char) : List Char :=
  let n := c.toNat
  if n = 34 then ['\\', '"']
  else if n = 92 then ['\\', '\\']
  else if n = 10 then ['\\', 'n']
  else if n = 13 then ['\\', 'r']
  else if n = 9 then ['\\', 't']
  else if n = 8 then ['\\', 'b']
  else if n = 12 then ['\\', 'f']
  else if n < 32 then '\\' :: 'u' :: hex4 n
  else if ascii ∧ 127 ≤ n then
    if n < 65536 then '\\' :: 'u' :: hex4 n
    else ('\\' :: 'u' :: hex4 (55296 + (n - 65536) / 1024)) ++
         ('\\' :: 'u' :: hex4 (56320 + (n - 65536) % 1024))
  else [c]

/-- A JSON string literal: quote, escaped body, quote. -/
def escStr (ascii : Bool) (l : List Char) : List Char :=
  '"' :: (l.flatMap (escChar ascii)) ++ ['"']

/-- Decimal digit characters, most significant first; `fuel` bounds the
number of digits and `natChars` supplies enough of it. -/
def natCharsFuel : Nat → Nat → List Char
  | 0, _ => []
  | Nat.succ fuel, n =>
      if n < 10 then [Char.ofNat (48 + n)]
      else natCharsFuel fuel (n / 10) ++ [Char.ofNat (48 + n % 10)]

/-- Decimal digit characters of a natural number (`str(n)` for `n : Nat`). -/
def natChars (n : Nat) : List Char := natCharsFuel (n + 1) n

/-- Decimal rendering of an integer (`str(i)`). -/
def intChars (i : Int) : List Char :=
  if i < 0 then '-' :: natChars i.natAbs else natChars i.natAbs

/-- `json.dumps` of one scalar value. -/
def dumpVal (ascii : Bool) : JVal → List Char
  | .jstr s => escStr ascii s.data
  | .jint i => intChars i
  | .jbool true => ['t', 'r', 'u', 'e']
  | .jbool false => ['f', 'a', 'l', 's', 'e']
  | .jnull => ['n', 'u', 'l', 'l']

/-- `json.dumps` of the members of a flat object, separated by `', '`,
with `': '` between key and value. -/
def dumpMembers (ascii : Bool) : JObj → List Char
  | [] => []
  | [(k, v)] => escStr ascii k.data ++ ':' :: ' ' :: dumpVal ascii v
  | (k, v) :: m :: t =>
      escStr ascii k.data ++ ':' :: ' ' :: dumpVal ascii v ++
      ',' :: ' ' :: dumpMembers ascii (m :: t)

/-- `json.dumps` of a flat object (`{` members `}`). -/
def dumpObj (ascii : Bool) (o : JObj) : List Char :=
  Char.ofNat 123 :: dumpMembers ascii o ++ [Char.ofNat 125]

/-- `json.dumps` of a flat object, as a string. -/
def dumpsObj (ascii : Bool) (o : JObj) : String :=
  String.mk (dumpObj ascii o)

/-- JSON whitespace. -/
def jWs (c : Char) : Bool := c = ' ' || c = '\t' || c = '\n' || c = '\r'

/-- Skip JSON whitespace. -/
def skipWs (l : List Char) : List Char := l.dropWhile jWs

/-- The value of a hexadecimal digit, if it is one. -/
def hexVal (c : Char) : Option Nat :=
  let n := c.toNat
  if 48 ≤ n ∧ n ≤ 57 then some (n - 48)
  else if 97 ≤ n ∧ n ≤ 102 then some (n - 87)
  else if 65 ≤ n ∧ n ≤ 70 then some (n - 55)
  else none

/-- Read four hexadecimal digits. -/
def hexQuad : List Char → Option (Nat × List Char)
  | h1 :: h2 :: h3 :: h4 :: rest =>
    (match hexVal h1, hexVal h2, hexVal h3, hexVal h4 with
     | some a, some b, some c, some d => some (a * 4096 + b * 256 + c * 16 + d, rest)
     | _, _, _, _ => none)
  | _ => none

/-- Decode one escape sequence after the backslash.  Unicode escapes in the
surrogate range are outside the model. -/
def escStep : List Char → Except String (Char × List Char)
  | [] => Except.error ("Unterminated string")
  | k :: rest1 =>
    if k = 'u' then
      match hexQuad rest1 with
      | some (v, rest2) =>
        if 55296 ≤ v ∧ v ≤ 57343 then Except.error ("Surrogate escape outside model")
        else Except.ok (Char.ofNat v, rest2)
      | none => Except.error ("Invalid unicode escape")
    else if k = '"' then Except.ok ('"', rest1)
    else if k = '\\' then Except.ok ('\\', rest1)
    else if k = '/' then Except.ok ('/', rest1)
    else if k = 'n' then Except.ok ('\n', rest1)
    else if k = 'r' then Except.ok ('\r', rest1)
    else if k = 't' then Except.ok ('\t', rest1)
    else if k = 'b' then Except.ok (Char.ofNat 8, rest1)
    else if k = 'f' then Except.ok (Char.ofNat 12, rest1)
    else Except.error ("Invalid escape")

/-- Prepend a character to a string-body parse result. -/
def consStr (c : Char) (r : Except String (List Char × List Char)) :
    Except String (List Char × List Char) :=
  match r with
  | Except.ok (s, rest) => Except.ok (c :: s, rest)
  | Except.error e => Except.error e

/-- Parse the body of a JSON string literal after the opening quote;
`fuel` bounds the number of produced characters and the entry point
supplies the input length, which suffices because every step consumes at
least one input character. -/
def parseStrBodyF : Nat → List Char → Except String (List Char × List Char)
  | _, [] => Except.error ("Unterminated string")
  | 0, _ :: _ => Except.error ("Unterminated string")
  | Nat.succ f, c :: rest =>
    if c = '"' then Except.ok ([], rest)
    else if c = '\\' then
      match escStep rest with
      | Except.ok (e, r2) => consStr e (parseStrBodyF f r2)
      | Except.error e2 => Except.error e2
    else if c.toNat < 32 then Except.error ("Control character in string")
    else consStr c (parseStrBodyF f rest)

/-- Parse the body of a JSON string literal after the opening quote,
returning the characters and the input after the closing quote. -/
def parseStrBody (l : List Char) : Except String (List Char × List Char) :=
  parseStrBodyF l.length l

/-- Is the character a decimal digit? -/
def isDig (c : Char) : Bool := 48 ≤ c.toNat && c.toNat ≤ 57

/-- Fold decimal digit characters into a natural number. -/
def digitsToNat (l : List Char) : Nat :=
  l.foldl (fun a c => a * 10 + (c.toNat - 48)) 0

/-- Parse an integer literal (optional minus, digits).  A following `.`,
`e` or `E` marks a float literal, which is outside the model. -/
def parseIntTail (neg : Bool) (l1 : List Char) : Except String (Int × List Char) :=
  let ds := l1.takeWhile isDig
  let rest := l1.dropWhile isDig
  if ds.isEmpty then Except.error ("Expecting value")
  else match rest with
    | c :: _ =>
        if c = '.' ∨ c = 'e' ∨ c = 'E' then Except.error ("Float literal outside model")
        else Except.ok (if neg then -(digitsToNat ds : Int) else (digitsToNat ds : Int), rest)
    | [] => Except.ok (if neg then -(digitsToNat ds : Int) else (digitsToNat ds : Int), rest)

/-- Parse an integer literal: an optional minus sign, then digits. -/
def parseIntLit (l : List Char) : Except String (Int × List Char) :=
  match l with
  | c :: t => if c = '-' then parseIntTail true t else parseIntTail false (c :: t)
  | [] => parseIntTail false []

/-- Parse one scalar JSON value: a string, a `true`/`false`/`null` literal,
or an integer literal. -/
def parseScalar : List Char → Except String (JVal × List Char)
  | [] => Except.error ("Expecting value")
  | c :: rest =>
    if c = '"' then
      match parseStrBody rest with
      | Except.ok (s, r) => Except.ok (JVal.jstr (String.mk s), r)
      | Except.error e => Except.error e
    else if c = 't' then
      match rest with
      | 'r' :: 'u' :: 'e' :: r => Except.ok (JVal.jbool true, r)
      | _ => Except.error ("Expecting value")
    else if c = 'f' then
      match rest with
      | 'a' :: 'l' :: 's' :: 'e' :: r => Except.ok (JVal.jbool false, r)
      | _ => Except.error ("Expecting value")
    else if c = 'n' then
      match rest with
      | 'u' :: 'l' :: 'l' :: r => Except.ok (JVal.jnull, r)
      | _ => Except.error ("Expecting value")
    else
      match parseIntLit (c :: rest) with
      | Except.ok (i, r) => Except.ok (JVal.jint i, r)
      | Except.error e => Except.error e

/-- Parse one `key: value` member after the opening quote of its key,
assigning it into the accumulator dict. -/
def parseOneMember (acc : JObj) (rest : List Char) : Except String (JObj × List Char) :=
  match parseStrBody rest with
  | Except.error e => Except.error e
  | Except.ok (k, r1) =>
    match skipWs r1 with
    | [] => Except.error ("Expecting colon")
    | c1 :: r2 =>
      if c1 = ':' then
        match parseScalar (skipWs r2) with
        | Except.error e => Except.error e
        | Except.ok (v, r3) => Except.ok (pySet acc (String.mk k) v, r3)
      else Except.error ("Expecting colon")

/-- Parse the members of an object after its opening brace, accumulating
into a Python dict via `pySet` (first-occurrence position, last value).
`fuel` bounds the number of members; the top-level entry point supplies
more fuel than the input length, so fuel exhaustion is unreachable. -/
def parseMembers : Nat → List Char → JObj → Except String (JObj × List Char)
  | 0, _, _ => Except.error ("Out of fuel")
  | Nat.succ fuel, l, acc =>
    match skipWs l with
    | [] => Except.error ("Unterminated object")
    | c :: rest =>
      if c = Char.ofNat 125 then Except.ok (acc, rest)
      else if c = '"' then
        match parseOneMember acc rest with
        | Except.error e => Except.error e
        | Except.ok (acc2, r3) =>
          match skipWs r3 with
          | [] => Except.error ("Expecting delimiter")
          | c2 :: r4 =>
            if c2 = ',' then
              match skipWs r4 with
              | [] => Except.error ("Expecting property name")
              | c3 :: r5 =>
                if c3 = '"' then parseMembers fuel (c3 :: r5) acc2
                else Except.error ("Expecting property name")
            else if c2 = Char.ofNat 125 then Except.ok (acc2, r4)
            else Except.error ("Expecting delimiter")
      else Except.error ("Expecting property name")

/-- `json.loads`: parse a complete document (an object or a bare scalar),
requiring only whitespace afterwards. -/
def jsonLoads (s : String) : Except String JTop :=
  match skipWs s.data with
  | c :: r =>
    if c = Char.ofNat 123 then
      match parseMembers (s.data.length + 1) r [] with
      | Except.ok (o, rest) =>
          if (skipWs rest).isEmpty then Except.ok (JTop.obj o)
          else Except.error ("Extra data")
      | Except.error e => Except.error e
    else
      match parseScalar (c :: r) with
      | Except.ok (v, rest) =>
          if (skipWs rest).isEmpty then Except.ok (JTop.scalar v)
          else Except.error ("Extra data")
      | Except.error e => Except.error e
  | [] => Except.error ("Expecting value")

/-- A printable ASCII character that `json.dumps` emits verbatim (not a
quote, not a backslash, no escaping needed). -/
def plainChar (c : Char) : Bool :=
  32 ≤ c.toNat && c.toNat ≤ 126 && !(c = '"') && !(c = '\\')

/-- A string of plain characters. -/
def plainStr (s : String) : Bool := s.data.all plainChar

/-- A scalar whose serialization is escape-free (integers, booleans and
null always are). -/
def plainVal : JVal → Bool
  | JVal.jstr s => plainStr s
  | _ => true

/-- A flat object with plain keys and plain values. -/
def plainObj (o : JObj) : Bool :=
  o.all (fun kv => plainStr kv.1 && plainVal kv.2)

/-- The keys of an object, in order. -/
def objKeys (o : JObj) : List String := o.map Prod.fst

/-- Fold a member list into a Python dict by repeated assignment (what the
object production of the parser does with its accumulator). -/
def foldSet (acc : JObj) (o : JObj) : JObj :=
  o.foldl (fun a kv => pySet a kv.1 kv.2) acc

/-- Does the character after an integer literal end the number?  (A digit
continues it; a dot or exponent letter would make it a float literal.) -/
def numStop : List Char → Bool
  | [] => true
  | c :: _ => !(isDig c) && !(c = '.') && !(c = 'e') && !(c = 'E')

/-! ## Small Python string helpers used by both modules -/

/-- `str.split(sep)`: split on every separator, keeping empty pieces. -/
def splitOn (sep : Char) : List Char → List (List Char)
  | [] => [[]]
  | c :: t =>
    if c = sep then [] :: splitOn sep t
    else
      match splitOn sep t with
      | h :: r => (c :: h) :: r
      | [] => [[c]]

/-- Python whitespace stripped by `str.strip()`. -/
def pyWs (c : Char) : Bool :=
  c = ' ' || c = '\t' || c = '\n' || c = '\r' || c.toNat = 11 || c.toNat = 12

/-- `str.strip()`. -/
def pyStrip (l : List Char) : List Char :=
  ((l.dropWhile pyWs).reverse.dropWhile pyWs).reverse

/-- ASCII lowercasing of one character. -/
def pyLowerChar (c : Char) : Char :=
  if 65 ≤ c.toNat ∧ c.toNat ≤ 90 then Char.ofNat (c.toNat + 32) else c

/-- `str.lower().strip()` as applied to incoming email fields.  Python
lowercases the full Unicode range; the model lowercases ASCII, which is
faithful on the alphabet the handlers compare against. -/
def pyLowerStrip (s : String) : String :=
  String.mk (pyStrip (s.data.map pyLowerChar))

/-- `cookie.split('=', 1)[1]`: everything after the first `=`. -/
def afterFirstEq (l : List Char) : List Char :=
  (l.dropWhile (fun c => c ≠ '=')).drop 1

/-- The cookie-name key the extractors look for. -/
def authCookieKey : String := "auth_token="

/-! ## The token codec of `backend/auth/index.py`

`create_jwt_token` (lines 287–311) and `verify_jwt_token` (lines 313–348).
The signing primitive `hmac.new(secret, message, sha256).digest()` is the
abstract parameter `mac`; `now` is the ambient clock in Unix seconds. -/

namespace Auth

/-- The fixed header dict `{'typ': 'JWT', 'alg': 'HS256'}`. -/
def headerObj : FinApp.JObj :=
  [("typ", FinApp.JVal.jstr ("JWT")), ("alg", FinApp.JVal.jstr ("HS256"))]

/-- Lines 294–296: `payload['exp'] = int(time.time()) + 7 * 24 * 3600;
payload['iat'] = int(time.time())` — both reads of the per-call clock. -/
def addTimestamps (now : Nat) (payload : JObj) : JObj :=
  pySet (pySet payload ("exp") (JVal.jint ((now : Int) + 7 * 24 * 3600)))
    ("iat") (JVal.jint (now : Int))

/-- `base64.urlsafe_b64encode(json.dumps(o).encode()).decode().rstrip('=')`. -/
def jsonSeg (o : JObj) : List Char :=
  rstripEq (encB64 (strBytes (dumpsObj true o)))

/-- The signing input `header_b64 + '.' + payload_b64` of the token built
from `payload` at time `now`. -/
def signingInput (now : Nat) (payload : JObj) : String :=
  String.mk (jsonSeg headerObj) ++ "." ++ String.mk (jsonSeg (addTimestamps now payload))

/-- `create_jwt_token` (auth module, lines 287–311). -/
def create_jwt_token (mac : String → String → List Nat) (secret : String)
    (now : Nat) (payload : JObj) : String :=
  let message := signingInput now payload
  let signature := mac secret message
  let signature_b64 := String.mk (rstripEq (encB64 signature))
  message ++ "." ++ signature_b64

/-- The expiry test `payload.get('exp', 0) < time.time()` (line 342).
Python compares booleans as integers; comparing a string or `None` with
the clock raises `TypeError`. -/
def expLess (payload : JObj) (now : Nat) : Except String Bool :=
  match dictGet payload ("exp") with
  | none => Except.ok (decide ((0 : Int) < (now : Int)))
  | some (JVal.jint e) => Except.ok (decide (e < (now : Int)))
  | some (JVal.jbool b) => Except.ok (decide ((if b then (1 : Int) else 0) < (now : Int)))
  | some (JVal.jstr _) => Except.error ("TypeError")
  | some JVal.jnull => Except.error ("TypeError")

/-- The body of `verify_jwt_token` inside its `try` (lines 316–345); an
`Except.error` marks a point where the Python code raises. -/
def verifyBody (mac : String → String → List Nat) (secret : String)
    (now : Nat) (token : String) : Except String (Option JObj) :=
  match splitOn '.' token.data with
  | [header_b64, payload_b64, signature_b64] =>
    let message := String.mk header_b64 ++ "." ++ String.mk payload_b64
    let expected_signature := mac secret message
    (decB64 (padRestore signature_b64)).bind (fun actual_signature =>
      if expected_signature ≠ actual_signature then Except.ok none
      else
        (decB64 (padRestore payload_b64)).bind (fun payloadBytes =>
          (utf8Dec payloadBytes).bind (fun payloadChars =>
            (jsonLoads (String.mk payloadChars)).bind (fun parsed =>
              match parsed with
              | JTop.obj payload =>
                (expLess payload now).bind (fun tooOld =>
                  if tooOld then Except.ok none else Except.ok (some payload))
              | JTop.scalar _ => Except.error ("AttributeError")))))
  | _ => Except.ok none

/-- `verify_jwt_token` (auth module, lines 313–348): the `try` body with
every raised exception caught and turned into `None`. -/
def verify_jwt_token (mac : String → String → List Nat) (secret : String)
    (now : Nat) (token : String) : Option JObj :=
  match verifyBody mac secret now token with
  | Except.ok r => r
  | Except.error _ => none

/-- `extract_token_from_cookies` (auth module, lines 419–430): the first
`;`-separated entry that starts with `auth_token=`, value after the first
`=`; `None` when the header is empty or no entry matches. -/
def findTok : List (List Char) → Option String
  | [] => none
  | c :: t =>
    let c2 := pyStrip c
    if authCookieKey.data.isPrefixOf c2 then some (String.mk (afterFirstEq c2))
    else findTok t

/-- `extract_token_from_cookies` (auth module, lines 419–430). -/
def extract_token_from_cookies (cookie_header : String) : Option String :=
  if cookie_header.isEmpty then none
  else findTok (splitOn ';' cookie_header.data)

end Auth

/-! ## HTTP responses and the user store

A response is its status code, headers and JSON body text.  The user store
is the `users` table: the columns the auth subsystem touches. -/

structure Response where
  statusCode : Nat
  headers : List (String × String)
  body : String
deriving DecidableEq

/-- A row of the `users` table (the columns this subsystem reads/writes). -/
structure UserRow where
  id : Int
  email : String
  first_name : String
  last_name : String
  password_hash : String
  reset_token : Option String
  reset_token_expires : Option Nat
deriving DecidableEq

/-- The `users` table. -/
abbrev Db := List UserRow

/-- `SELECT ... FROM users WHERE id = %s` (first matching row). -/
def findUserById (db : Db) (uid : Int) : Option UserRow :=
  db.find? (fun r => decide (r.id = uid))

/-- `SELECT ... FROM users WHERE email = %s` (first matching row). -/
def findUserByEmail (db : Db) (email : String) : Option UserRow :=
  db.find? (fun r => decide (r.email = email))

/-- The body `json.dumps({'message': m}, ensure_ascii=False)`. -/
def msgBody (m : String) : String :=
  dumpsObj false [("message", JVal.jstr m)]

/-- The body `json.dumps({'error': m}, ensure_ascii=False)`. -/
def errBody (m : String) : String :=
  dumpsObj false [("error", JVal.jstr m)]

namespace Auth

/-- The constant headers of `success_response` / `error_response`
(auth module, lines 406–443). -/
def respHeaders : List (String × String) :=
  [("Content-Type", "application/json"),
   ("Access-Control-Allow-Origin", "*"),
   ("Access-Control-Allow-Credentials", "true")]

/-- `error_response` (auth module, lines 432–443). -/
def error_response (message : String) (status_code : Nat) : Response :=
  ⟨status_code, respHeaders, errBody message⟩

/-- `success_response` (auth module, lines 406–417), applied to the already
serialized body (`json.dumps(data, ensure_ascii=False)`). -/
def success_response (bodyJson : String) : Response :=
  ⟨200, respHeaders, bodyJson⟩

/-- The body of the GET success path (lines 79–87):
`{'user': {'id', 'email', 'first_name', 'last_name'}, 'valid': True}`
serialized with `ensure_ascii=False`. -/
def getSuccessBody (u : UserRow) : String :=
  String.mk (Char.ofNat 123 :: (escStr false ("user").data ++ ':' :: ' ' ::
    dumpObj false
      [("id", JVal.jint u.id), ("email", JVal.jstr u.email),
       ("first_name", JVal.jstr u.first_name), ("last_name", JVal.jstr u.last_name)] ++
    ',' :: ' ' :: escStr false ("valid").data ++ ':' :: ' ' ::
    't' :: 'r' :: 'u' :: 'e' :: [Char.ofNat 125]))

/-- Stand-in for `str(e)` of the exception the database driver raises when
the GET query binds a boolean or string `user_id` to the integer `id`
column: its exact text is the driver's, external to the repository, and no
theorem inspects it. -/
def dbParamMismatch : String := "operator does not exist"

/-- The tail of the GET branch once a payload has been verified (lines
68–88): Python truthiness makes an empty payload dict fall through to the
401; a payload without a `user_id` key raises `KeyError('user_id')` into
the outer `except`, which answers `error_response("Server error: " +
"'user_id'", 500)`; a `None` id reaches the store, where `WHERE id = NULL`
matches no row, so it falls through to the 401; a boolean or string id
makes the driver raise at `execute`, answered 500 with the driver's
message; an unknown user id falls through to the 401. -/
def afterVerify (db : Db) (user_data : JObj) : Response :=
  if user_data.isEmpty then error_response ("Invalid token") 401
  else
    match dictGet user_data ("user_id") with
    | some (JVal.jint uid) =>
      (match findUserById db uid with
       | some u => success_response (getSuccessBody u)
       | none => error_response ("Invalid token") 401)
    | some JVal.jnull => error_response ("Invalid token") 401
    | none => error_response ("Server error: 'user_id'") 500
    | _ => error_response (("Server error: ") ++ dbParamMismatch) 500

def handlerGet (mac : String → String → List Nat) (secret : String)
    (now : Nat) (db : Db) (reqHeaders : List (String × String)) : Response :=
  let cookies := Option.getD (reqHeaders.lookup ("Cookie")) ("")
  match extract_token_from_cookies cookies with
  | none => error_response ("Invalid token") 401
  | some token =>
    if token.isEmpty then error_response ("Invalid token") 401
    else
      match verify_jwt_token mac secret now token with
      | none => error_response ("Invalid token") 401
      | some user_data => afterVerify db user_data

/-- `UPDATE users SET reset_token = %s, reset_token_expires = to_timestamp(%s)
WHERE id = %s` (lines 229–233). -/
def setResetTok (db : Db) (uid : Int) (tok : String) (expires : Nat) : Db :=
  db.map (fun r =>
    if r.id = uid then
      { r with reset_token := some tok, reset_token_expires := some expires }
    else r)

/-- `handle_reset_password` (auth module, lines 209–247).  `rng` is the
fresh `secrets.token_urlsafe(32)` value; the e-mail send is wrapped in its
own `try/except` and cannot change the response. -/
def handle_reset_password (db : Db) (emailRaw : String) (rng : String)
    (now : Nat) : Response × Db :=
  let email := pyLowerStrip emailRaw
  if email.isEmpty then (error_response ("Email is required") 400, db)
  else
    match findUserByEmail db email with
    | none => (success_response (msgBody ("Reset email sent if account exists")), db)
    | some user =>
      let expires_at := now + 3600
      (success_response (msgBody ("Reset email sent if account exists")),
       setResetTok db user.id rng expires_at)

/-- `SELECT id, email FROM users WHERE reset_token = %s AND
reset_token_expires > CURRENT_TIMESTAMP` (lines 262–265): first row whose
stored token equals the presented one and whose expiry is strictly in the
future; a cleared (`NULL`) token or expiry never matches. -/
def confirmSelect (db : Db) (token : String) (now : Nat) : Option UserRow :=
  db.find? (fun r =>
    decide (r.reset_token = some token) &&
    (match r.reset_token_expires with
     | some e => decide (now < e)
     | none => false))

/-- `UPDATE users SET password_hash = %s, reset_token = NULL,
reset_token_expires = NULL WHERE id = %s` (lines 274–278). -/
def confirmUpdate (db : Db) (uid : Int) (newHash : String) : Db :=
  db.map (fun r =>
    if r.id = uid then
      { r with password_hash := newHash, reset_token := none,
               reset_token_expires := none }
    else r)

/-- The tail of `handle_confirm_reset` after the `SELECT` (lines 267–281):
reject when no row matched, otherwise hash the new password, clear the
token and answer success.  Split out so the interleaved two-request
execution can be expressed with the same code. -/
def confirmFinish (hashFn : String → String) (new_password : String)
    (sel : Option UserRow) (db : Db) : Response × Db :=
  match sel with
  | none => (error_response ("Invalid or expired token") 400, db)
  | some user =>
      let password_hash := hashFn new_password
      (success_response (msgBody ("Password reset successful")),
       confirmUpdate db user.id password_hash)

/-- `handle_confirm_reset` (auth module, lines 249–285). -/
def handle_confirm_reset (hashFn : String → String) (db : Db)
    (token new_password : String) (now : Nat) : Response × Db :=
  if token.isEmpty ∨ new_password.isEmpty then
    (error_response ("Token and new password are required") 400, db)
  else if new_password.length < 6 then
    (error_response ("Password must be at least 6 characters") 400, db)
  else
    confirmFinish hashFn new_password (confirmSelect db token now) db

/-- Two concurrent `confirm_reset` requests on the same token under the
schedule where both `SELECT`s commit before either `UPDATE`: each request
runs exactly the code of `handle_confirm_reset` (its `SELECT` phase
`confirmSelect`, then its write phase `confirmFinish`), on its own store
connection; the store serializes the four statements in the order
A-select, B-select, A-update, B-update.  Input validation is local to each
request and assumed passed. -/
def confirmRace (hashA hashB : String → String) (db : Db)
    (token pwA pwB : String) (now : Nat) : Response × Response × Db :=
  let selA := confirmSelect db token now
  let selB := confirmSelect db token now
  let (rA, db1) := confirmFinish hashA pwA selA db
  let (rB, db2) := confirmFinish hashB pwB selB db1
  (rA, rB, db2)

end Auth

/-! ## The duplicated module `backend/user-auth/index.py`

The same token codec and cookie extractor, written out again from that
module (lines 207–225, 227–259, 261–272), plus its own response shapes:
every response carries the module's `cors_headers` dict. -/

namespace UserAuth

/-- The fixed header dict `{'typ': 'JWT', 'alg': 'HS256'}` (line 209). -/
def headerObj : JObj :=
  [("typ", JVal.jstr ("JWT")), ("alg", JVal.jstr ("HS256"))]

/-- Lines 211–212: `payload['exp'] = int(time.time()) + 7 * 24 * 3600;
payload['iat'] = int(time.time())`. -/
def addTimestamps (now : Nat) (payload : JObj) : JObj :=
  pySet (pySet payload ("exp") (JVal.jint ((now : Int) + 7 * 24 * 3600)))
    ("iat") (JVal.jint (now : Int))

/-- `base64.urlsafe_b64encode(json.dumps(o).encode()).decode().rstrip('=')`. -/
def jsonSeg (o : JObj) : List Char :=
  rstripEq (encB64 (strBytes (dumpsObj true o)))

/-- `create_jwt_token` (user-auth module, lines 207–225). -/
def create_jwt_token (mac : String → String → List Nat) (secret : String)
    (now : Nat) (payload : JObj) : String :=
  let header_b64 := String.mk (jsonSeg headerObj)
  let payload_b64 := String.mk (jsonSeg (addTimestamps now payload))
  let message := header_b64 ++ "." ++ payload_b64
  let signature := mac secret message
  let signature_b64 := String.mk (rstripEq (encB64 signature))
  message ++ "." ++ signature_b64

/-- The expiry test `payload.get('exp', 0) < time.time()` (line 253). -/
def expLess (payload : JObj) (now : Nat) : Except String Bool :=
  match dictGet payload ("exp") with
  | none => Except.ok (decide ((0 : Int) < (now : Int)))
  | some (JVal.jint e) => Except.ok (decide (e < (now : Int)))
  | some (JVal.jbool b) => Except.ok (decide ((if b then (1 : Int) else 0) < (now : Int)))
  | some (JVal.jstr _) => Except.error ("TypeError")
  | some JVal.jnull => Except.error ("TypeError")

/-- The body of `verify_jwt_token` inside its `try` (lines 229–256). -/
def verifyBody (mac : String → String → List Nat) (secret : String)
    (now : Nat) (token : String) : Except String (Option JObj) :=
  match splitOn '.' token.data with
  | [header_b64, payload_b64, signature_b64] =>
    let message := String.mk header_b64 ++ "." ++ String.mk payload_b64
    let expected_signature := mac secret message
    (decB64 (padRestore signature_b64)).bind (fun actual_signature =>
      if expected_signature ≠ actual_signature then Except.ok none
      else
        (decB64 (padRestore payload_b64)).bind (fun payloadBytes =>
          (utf8Dec payloadBytes).bind (fun payloadChars =>
            (jsonLoads (String.mk payloadChars)).bind (fun parsed =>
              match parsed with
              | JTop.obj payload =>
                (expLess payload now).bind (fun tooOld =>
                  if tooOld then Except.ok none else Except.ok (some payload))
              | JTop.scalar _ => Except.error ("AttributeError")))))
  | _ => Except.ok none

/-- `verify_jwt_token` (user-auth module, lines 227–259). -/
def verify_jwt_token (mac : String → String → List Nat) (secret : String)
    (now : Nat) (token : String) : Option JObj :=
  match verifyBody mac secret now token with
  | Except.ok r => r
  | Except.error _ => none

/-- `extract_token_from_cookies` (user-auth module, lines 261–272). -/
def findTok : List (List Char) → Option String
  | [] => none
  | c :: t =>
    let c2 := pyStrip c
    if authCookieKey.data.isPrefixOf c2 then some (String.mk (afterFirstEq c2))
    else findTok t

/-- `extract_token_from_cookies` (user-auth module, lines 261–272). -/
def extract_token_from_cookies (cookie_header : String) : Option String :=
  if cookie_header.isEmpty then none
  else findTok (splitOn ';' cookie_header.data)

/-- `cors_headers` (user-auth module, lines 24–31). -/
def cors_headers : List (String × String) :=
  [("Access-Control-Allow-Origin", "*"),
   ("Access-Control-Allow-Credentials", "true"),
   ("Access-Control-Allow-Methods", "GET, POST, PUT, DELETE, OPTIONS"),
   ("Access-Control-Allow-Headers", "Content-Type, X-User-Id, X-Auth-Token, Authorization, Cookie"),
   ("Access-Control-Max-Age", "86400"),
   ("Content-Type", "application/json")]

/-- `error_response` (user-auth module, lines 296–303). -/
def error_response (message : String) (status_code : Nat) : Response :=
  ⟨status_code, cors_headers, errBody message⟩

/-- `success_response` (user-auth module, lines 287–294), applied to the
already serialized body. -/
def success_response (bodyJson : String) : Response :=
  ⟨200, cors_headers, bodyJson⟩

/-- The body of the GET success path (lines 77–80): `{'user': dict(user),
'valid': True}` with the selected columns `id, email, first_name,
last_name` in query order. -/
def getSuccessBody (u : UserRow) : String :=
  String.mk (Char.ofNat 123 :: (escStr false ("user").data ++ ':' :: ' ' ::
    dumpObj false
      [("id", JVal.jint u.id), ("email", JVal.jstr u.email),
       ("first_name", JVal.jstr u.first_name), ("last_name", JVal.jstr u.last_name)] ++
    ',' :: ' ' :: escStr false ("valid").data ++ ':' :: ' ' ::
    't' :: 'r' :: 'u' :: 'e' :: [Char.ofNat 125]))

/-- The GET branch of `handler` (user-auth module, lines 60–82): identical
control flow to the auth module's GET branch, with this module's response
shapes. -/
def handlerGet (mac : String → String → List Nat) (secret : String)
    (now : Nat) (db : Db) (reqHeaders : List (String × String)) : Response :=
  let cookies := Option.getD (reqHeaders.lookup ("Cookie")) ("")
  match extract_token_from_cookies cookies with
  | none => error_response ("Invalid token") 401
  | some token =>
    if token.isEmpty then error_response ("Invalid token") 401
    else
      match verify_jwt_token mac secret now token with
      | none => error_response ("Invalid token") 401
      | some user_data =>
        if user_data.isEmpty then error_response ("Invalid token") 401
        else
          match dictGet user_data ("user_id") with
          | some (JVal.jint uid) =>
            (match findUserById db uid with
             | some u => success_response (getSuccessBody u)
             | none => error_response ("Invalid token") 401)
          | some JVal.jnull => error_response ("Invalid token") 401
          | none => error_response ("Server error: 'user_id'") 500
          | _ => error_response (("Server error: ") ++ Auth.dbParamMismatch) 500

/-- `handle_reset_password` (user-auth module, lines 194–201): validate the
email, then always answer the fixed success message; the store is never
consulted and never changed. -/
def handle_reset_password (db : Db) (emailRaw : String) : Response × Db :=
  let email := pyLowerStrip emailRaw
  if email.isEmpty then (error_response ("Email required") 400, db)
  else (success_response (msgBody ("Reset email sent if account exists")), db)

/-- `handle_confirm_reset` (user-auth module, lines 203–205): a stub that
always answers success and touches nothing. -/
def handle_confirm_reset (db : Db) : Response × Db :=
  (success_response (msgBody ("Password reset successful")), db)

end UserAuth

/-! ## Concrete instances used to evaluate the model

The MAC is abstract throughout the development; `macDemo` is one concrete
instance (32 bytes derived from key and message) used to run the model on
specific inputs.  `demoRow`/`demoDb` are a one-user store and `demoClaims`
the claim dict the handlers build at login. -/

/-- A concrete byte-valued stand-in for the abstract MAC parameter. -/
def macDemo (k m : String) : List Nat :=
  (strBytes k ++ strBytes m ++ List.replicate 32 7).take 32

/-- The claims dict the handlers pass to `create_jwt_token`. -/
def demoClaims : JObj :=
  [("user_id", JVal.jint 1), ("email", JVal.jstr ("a@x.com"))]

/-- A user row holding a live reset token. -/
def demoRow : UserRow :=
  { id := 1, email := "a@x.com", first_name := "Ann", last_name := "Lee",
    password_hash := "oldhash", reset_token := some ("tok"),
    reset_token_expires := some 2000 }

/-- A one-user store. -/
def demoDb : Db := [demoRow]

/-! ## Lemmas: characters and base64url -/

theorem char_toNat_ofNat {n : Nat} (h : n < 55296) : (Char.ofNat n).toNat = n := by
  rw [Char.ofNat, dif_pos (Or.inl h)]
  rfl

theorem char_ne_of_toNat_ne {a b : Char} (h : a.toNat ≠ b.toNat) : a ≠ b :=
  fun he => h (congrArg Char.toNat he)

/-- The code of the alphabet character of a 6-bit value, as arithmetic. -/
theorem b64Chr_toNat (n : Nat) : (b64Chr n).toNat =
    (if n < 26 then 65 + n
     else if n < 52 then 97 + (n - 26)
     else if n < 62 then 48 + (n - 52)
     else if n = 62 then 45 else 95) := by
  unfold b64Chr
  repeat' split
  all_goals rw [char_toNat_ofNat (by omega)]

/-- The alphabet character of any 6-bit value is in the accepted alphabet. -/
theorem b64IsAlpha_b64Chr (n : Nat) : b64IsAlpha (b64Chr n) = true := by
  simp only [b64IsAlpha, b64Chr_toNat, Bool.or_eq_true, Bool.and_eq_true,
    decide_eq_true_eq]
  repeat' split
  all_goals omega

/-- Alphabet characters are never the padding character. -/
theorem b64Chr_ne_pad (n : Nat) : b64Chr n ≠ '=' := by
  refine char_ne_of_toNat_ne ?_
  rw [b64Chr_toNat, show ('=').toNat = 61 from rfl]
  repeat' split
  all_goals omega

/-- Alphabet characters are never the dot separator. -/
theorem b64Chr_ne_dot (n : Nat) : b64Chr n ≠ '.' := by
  refine char_ne_of_toNat_ne ?_
  rw [b64Chr_toNat, show ('.').toNat = 46 from rfl]
  repeat' split
  all_goals omega

/-- Alphabet characters are never the cookie separator. -/
theorem b64Chr_ne_semi (n : Nat) : b64Chr n ≠ ';' := by
  refine char_ne_of_toNat_ne ?_
  rw [b64Chr_toNat, show (';').toNat = 59 from rfl]
  repeat' split
  all_goals omega

/-- Decoding inverts the alphabet map on 6-bit values. -/
theorem b64Val_b64Chr {n : Nat} (h : n < 64) : b64Val (b64Chr n) = n := by
  simp only [b64Val, b64Chr_toNat]
  repeat' split
  all_goals omega

/-- Every character of a stripped encoding is an alphabet character. -/
theorem encB64NP_alpha {bs : List Nat} {c : Char} (h : c ∈ encB64NP bs) :
    b64IsAlpha c = true := by
  induction bs using encB64NP.induct with
  | case1 => simp [encB64NP] at h
  | case2 a =>
    simp only [encB64NP, List.mem_cons, List.not_mem_nil, or_false] at h
    rcases h with h | h
    all_goals (subst h; exact b64IsAlpha_b64Chr _)
  | case3 a b =>
    simp only [encB64NP, List.mem_cons, List.not_mem_nil, or_false] at h
    rcases h with h | h | h
    all_goals (subst h; exact b64IsAlpha_b64Chr _)
  | case4 a b cc t ih =>
    simp only [encB64NP, List.mem_cons] at h
    rcases h with h | h | h | h | h
    · subst h; exact b64IsAlpha_b64Chr _
    · subst h; exact b64IsAlpha_b64Chr _
    · subst h; exact b64IsAlpha_b64Chr _
    · subst h; exact b64IsAlpha_b64Chr _
    · exact ih h

/-- No character of a stripped encoding is the padding character. -/
theorem encB64NP_no_pad {bs : List Nat} {c : Char} (h : c ∈ encB64NP bs) :
    c ≠ '=' := by
  induction bs using encB64NP.induct with
  | case1 => simp [encB64NP] at h
  | case2 a =>
    simp only [encB64NP, List.mem_cons, List.not_mem_nil, or_false] at h
    rcases h with h | h
    all_goals (subst h; exact b64Chr_ne_pad _)
  | case3 a b =>
    simp only [encB64NP, List.mem_cons, List.not_mem_nil, or_false] at h
    rcases h with h | h | h
    all_goals (subst h; exact b64Chr_ne_pad _)
  | case4 a b cc t ih =>
    simp only [encB64NP, List.mem_cons] at h
    rcases h with h | h | h | h | h
    · subst h; exact b64Chr_ne_pad _
    · subst h; exact b64Chr_ne_pad _
    · subst h; exact b64Chr_ne_pad _
    · subst h; exact b64Chr_ne_pad _
    · exact ih h

/-- No character of a stripped encoding is the dot separator. -/
theorem encB64NP_no_dot {bs : List Nat} {c : Char} (h : c ∈ encB64NP bs) :
    c ≠ '.' := by
  induction bs using encB64NP.induct with
  | case1 => simp [encB64NP] at h
  | case2 a =>
    simp only [encB64NP, List.mem_cons, List.not_mem_nil, or_false] at h
    rcases h with h | h
    all_goals (subst h; exact b64Chr_ne_dot _)
  | case3 a b =>
    simp only [encB64NP, List.mem_cons, List.not_mem_nil, or_false] at h
    rcases h with h | h | h
    all_goals (subst h; exact b64Chr_ne_dot _)
  | case4 a b cc t ih =>
    simp only [encB64NP, List.mem_cons] at h
    rcases h with h | h | h | h | h
    · subst h; exact b64Chr_ne_dot _
    · subst h; exact b64Chr_ne_dot _
    · subst h; exact b64Chr_ne_dot _
    · subst h; exact b64Chr_ne_dot _
    · exact ih h

/-- The padding strip leaves a list with no padding characters unchanged. -/
theorem rstripEq_of_no_pad {l : List Char} (h : ∀ c ∈ l, c ≠ '=') :
    rstripEq l = l := by
  unfold rstripEq
  rcases hr : l.reverse with _ | ⟨c, r⟩
  · simp [List.reverse_eq_nil_iff.mp hr]
  · have hc : c ∈ l := by
      have : c ∈ l.reverse := by rw [hr]; exact List.mem_cons_self _ _
      exact List.mem_reverse.mp this
    rw [List.dropWhile_cons, if_neg (by simp [h c hc])]
    rw [← hr, List.reverse_reverse]

/-- Stripping distributes over append: if the suffix strips away entirely
the strip continues into the prefix, otherwise the prefix is untouched. -/
theorem rstripEq_append (x y : List Char) :
    rstripEq (x ++ y) =
      if rstripEq y = [] then rstripEq x else x ++ rstripEq y := by
  unfold rstripEq
  rw [List.reverse_append, List.dropWhile_append]
  rcases hd : List.dropWhile (fun c => decide (c = '=')) y.reverse with _ | ⟨c, r⟩
  · simp [hd]
  · simp [hd, List.reverse_append]

/-- A stripped encoding of a nonempty byte list is nonempty. -/
theorem encB64NP_ne_nil {bs : List Nat} (h : bs ≠ []) : encB64NP bs ≠ [] := by
  match bs with
  | [] => exact absurd rfl h
  | [a] => simp [encB64NP]
  | [a, b] => simp [encB64NP]
  | a :: b :: c :: t => simp [encB64NP]

/-- `rstrip('=')` of the padded encoding is the stripped encoding. -/
theorem rstrip_encB64 (bs : List Nat) : rstripEq (encB64 bs) = encB64NP bs := by
  induction bs using encB64.induct with
  | case1 => simp [encB64, encB64NP, rstripEq]
  | case2 a =>
    show rstripEq ([b64Chr (a / 4), b64Chr (a % 4 * 16)] ++ ['=', '=']) = _
    rw [rstripEq_append, if_pos (by simp [rstripEq, List.dropWhile])]
    rw [rstripEq_of_no_pad (by
      intro c hc
      simp only [List.mem_cons, List.not_mem_nil, or_false] at hc
      rcases hc with h | h
      all_goals (subst h; exact b64Chr_ne_pad _))]
    rfl
  | case3 a b =>
    show rstripEq ([b64Chr (a / 4), b64Chr (a % 4 * 16 + b / 16), b64Chr (b % 16 * 4)]
      ++ ['=']) = _
    rw [rstripEq_append, if_pos (by simp [rstripEq, List.dropWhile])]
    rw [rstripEq_of_no_pad (by
      intro c hc
      simp only [List.mem_cons, List.not_mem_nil, or_false] at hc
      rcases hc with h | h | h
      all_goals (subst h; exact b64Chr_ne_pad _))]
    rfl
  | case4 a b c t ih =>
    show rstripEq ([b64Chr (a / 4), b64Chr (a % 4 * 16 + b / 16),
      b64Chr (b % 16 * 4 + c / 64), b64Chr (c % 64)] ++ encB64 t) = _
    rw [rstripEq_append]
    rcases ht : t with _ | ⟨x, xs⟩
    · rw [if_pos (by rw [← ht, ih, ht]; rfl)]
      rw [rstripEq_of_no_pad (by
        intro d hd
        simp only [List.mem_cons, List.not_mem_nil, or_false] at hd
        rcases hd with h | h | h | h
        all_goals (subst h; exact b64Chr_ne_pad _))]
      rfl
    · rw [← ht, ih, if_neg (encB64NP_ne_nil (by rw [ht]; simp))]
      rfl

/-- Decoding the quanta inverts the stripped encoding on byte lists. -/
theorem decQuads_encB64NP {bs : List Nat} (h : ∀ b ∈ bs, b < 256) :
    decQuads (encB64NP bs) = bs := by
  induction bs using encB64NP.induct with
  | case1 => rfl
  | case2 a =>
    have ha : a < 256 := h a (by simp)
    show decQuads [b64Chr (a / 4), b64Chr (a % 4 * 16)] = [a]
    unfold decQuads
    rw [b64Val_b64Chr (by omega), b64Val_b64Chr (by omega)]
    congr 1
    omega
  | case3 a b =>
    have ha : a < 256 := h a (by simp)
    have hb : b < 256 := h b (by simp)
    show decQuads [b64Chr (a / 4), b64Chr (a % 4 * 16 + b / 16),
      b64Chr (b % 16 * 4)] = [a, b]
    unfold decQuads
    rw [b64Val_b64Chr (by omega), b64Val_b64Chr (by omega), b64Val_b64Chr (by omega)]
    congr 1
    · omega
    congr 1
    omega
  | case4 a b c t ih =>
    have ha : a < 256 := h a (by simp)
    have hb : b < 256 := h b (by simp)
    have hc : c < 256 := h c (by simp)
    show decQuads (b64Chr (a / 4) :: b64Chr (a % 4 * 16 + b / 16) ::
      b64Chr (b % 16 * 4 + c / 64) :: b64Chr (c % 64) :: encB64NP t) = a :: b :: c :: t
    unfold decQuads
    rw [b64Val_b64Chr (by omega), b64Val_b64Chr (by omega), b64Val_b64Chr (by omega),
      b64Val_b64Chr (by omega)]
    rw [ih (fun x hx => h x (by simp [hx]))]
    congr 1
    · omega
    congr 1
    · omega
    congr 1
    omega

/-- The length of a stripped encoding is 0, 2 or 3 modulo 4. -/
theorem encB64NP_length_mod (bs : List Nat) :
    (encB64NP bs).length % 4 = 0 ∨ (encB64NP bs).length % 4 = 2 ∨
    (encB64NP bs).length % 4 = 3 := by
  induction bs using encB64NP.induct with
  | case1 => simp [encB64NP]
  | case2 a => simp [encB64NP]
  | case3 a b => simp [encB64NP]
  | case4 a b c t ih =>
    show (b64Chr (a / 4) :: b64Chr (a % 4 * 16 + b / 16) ::
      b64Chr (b % 16 * 4 + c / 64) :: b64Chr (c % 64) :: encB64NP t).length % 4 = 0 ∨
      (b64Chr (a / 4) :: b64Chr (a % 4 * 16 + b / 16) ::
      b64Chr (b % 16 * 4 + c / 64) :: b64Chr (c % 64) :: encB64NP t).length % 4 = 2 ∨
      (b64Chr (a / 4) :: b64Chr (a % 4 * 16 + b / 16) ::
      b64Chr (b % 16 * 4 + c / 64) :: b64Chr (c % 64) :: encB64NP t).length % 4 = 3
    simp only [List.length_cons]
    rcases ih with hh | hh | hh
    · exact Or.inl (by omega)
    · exact Or.inr (Or.inl (by omega))
    · exact Or.inr (Or.inr (by omega))

/-- Round trip: restoring the padding and decoding inverts the stripped
encoding on byte lists. -/
theorem decB64_padRestore_encB64NP {bs : List Nat} (h : ∀ b ∈ bs, b < 256) :
    decB64 (padRestore (encB64NP bs)) = Except.ok bs := by
  have hfil : ((encB64NP bs ++ List.replicate (4 - (encB64NP bs).length % 4) '=').filter
      (fun c => b64IsAlpha c || c = '=')) =
      encB64NP bs ++ List.replicate (4 - (encB64NP bs).length % 4) '=' := by
    rw [List.filter_eq_self]
    intro a ha
    rcases List.mem_append.mp ha with ha | ha
    · simp [encB64NP_alpha ha]
    · have : a = '=' := List.eq_of_mem_replicate ha
      simp [this]
  have hpos : ∀ c ∈ encB64NP bs, (fun c => decide (c ≠ '=')) c = true := by
    intro c hc
    simp [encB64NP_no_pad hc]
  obtain ⟨m, hm⟩ : ∃ m, 4 - (encB64NP bs).length % 4 = m + 1 :=
    ⟨4 - (encB64NP bs).length % 4 - 1, by omega⟩
  have htw : (List.replicate (m + 1) '=').takeWhile (fun c => decide (c ≠ '=')) = [] := by
    simp [List.replicate_succ, List.takeWhile_cons]
  have hdw : (List.replicate (m + 1) '=').dropWhile (fun c => decide (c ≠ '=')) =
      List.replicate (m + 1) '=' := by
    simp [List.replicate_succ, List.dropWhile_cons]
  simp only [decB64, padRestore, hm]
  rw [hm] at hfil
  rw [hfil, List.takeWhile_append_of_pos hpos, List.dropWhile_append_of_pos hpos,
    htw, hdw, List.append_nil, List.countP_replicate]
  have hpad : (if decide ('=' = '=') = true then m + 1 else 0) = m + 1 := by simp
  rw [hpad]
  have hdec := decQuads_encB64NP h
  rcases encB64NP_length_mod bs with hl | hl | hl
  all_goals rw [hl] at hm
  all_goals rw [hl]
  · rw [if_neg (by omega), if_neg (by rintro ⟨h1, h2⟩; omega),
      if_neg (by rintro ⟨h1, h2⟩; omega), hdec]
  · rw [if_neg (by omega), if_neg (by rintro ⟨h1, h2⟩; omega),
      if_neg (by rintro ⟨h1, h2⟩; omega), hdec]
  · rw [if_neg (by omega), if_neg (by rintro ⟨h1, h2⟩; omega),
      if_neg (by rintro ⟨h1, h2⟩; omega), hdec]

/-! ## Lemmas: UTF-8 on the ASCII range, and `json.dumps` output is ASCII -/

theorem utf8Enc_ascii {n : Nat} (h : n < 128) : utf8Enc n = [n] := by
  unfold utf8Enc
  rw [if_pos (by omega)]

theorem listBytes_ascii {l : List Char} (h : ∀ c ∈ l, c.toNat < 128) :
    listBytes l = l.map Char.toNat := by
  induction l with
  | nil => rfl
  | cons c t ih =>
    show utf8Enc c.toNat ++ listBytes t = _
    rw [utf8Enc_ascii (h c (by simp)), ih (fun d hd => h d (by simp [hd]))]
    rfl

theorem utf8Step_ascii {b : Nat} (hb : b < 128) (rest : List Nat) :
    utf8Step b rest = some (b, rest) := by
  unfold utf8Step
  rw [if_pos (by omega)]

theorem utf8DecF_map_toNat {l : List Char} {f : Nat} (hf : l.length ≤ f)
    (h : ∀ c ∈ l, c.toNat < 128) :
    utf8DecF f (l.map Char.toNat) = Except.ok l := by
  induction l generalizing f with
  | nil => rcases f with _ | f <;> rfl
  | cons c t ih =>
    rcases f with _ | f
    · simp at hf
    show (match utf8Step c.toNat (t.map Char.toNat) with
      | some (cp, t1) => consDecoded cp (utf8DecF f t1)
      | none => Except.error ("UnicodeDecodeError")) = Except.ok (c :: t)
    rw [utf8Step_ascii (h c (by simp))]
    show consDecoded c.toNat (utf8DecF f (t.map Char.toNat)) = _
    rw [ih (by simp at hf; omega) (fun d hd => h d (by simp [hd]))]
    show Except.ok (Char.ofNat c.toNat :: t) = _
    rw [Char.ofNat_toNat]

/-- Decoding inverts encoding on ASCII character lists. -/
theorem utf8Dec_listBytes_ascii {l : List Char} (h : ∀ c ∈ l, c.toNat < 128) :
    utf8Dec (listBytes l) = Except.ok l := by
  rw [listBytes_ascii h]
  exact utf8DecF_map_toNat (by simp) h

/-- Every UTF-8 byte of a valid code point is below 256. -/
theorem utf8Enc_lt_256 {n : Nat} (hn : n < 1114112) {b : Nat}
    (hb : b ∈ utf8Enc n) : b < 256 := by
  unfold utf8Enc at hb
  repeat' split at hb
  all_goals simp only [List.mem_cons, List.not_mem_nil, or_false] at hb
  all_goals (first
    | (rcases hb with h | h | h | h; all_goals omega)
    | (rcases hb with h | h | h; all_goals omega)
    | (rcases hb with h | h; all_goals omega)
    | omega)

/-- A character code is below the Unicode bound. -/
theorem char_toNat_lt (c : Char) : c.toNat < 1114112 := by
  rcases c.valid with h | ⟨h1, h2⟩
  · exact Nat.lt_trans h (by norm_num)
  · exact h2

/-- Every byte of an encoded character list is below 256. -/
theorem listBytes_lt_256 {l : List Char} {b : Nat} (hb : b ∈ listBytes l) :
    b < 256 := by
  induction l with
  | nil => simp [listBytes] at hb
  | cons c t ih =>
    have : b ∈ utf8Enc c.toNat ++ listBytes t := hb
    rcases List.mem_append.mp this with h | h
    · exact utf8Enc_lt_256 (char_toNat_lt c) h
    · exact ih h

theorem hexChr_lt {n : Nat} (h : n < 16) : (hexChr n).toNat < 128 := by
  unfold hexChr
  split
  all_goals rw [char_toNat_ofNat (by omega)]
  all_goals omega

theorem hex4_lt {n : Nat} {c : Char} (hc : c ∈ hex4 n) : c.toNat < 128 := by
  unfold hex4 at hc
  simp only [List.mem_cons, List.not_mem_nil, or_false] at hc
  rcases hc with h | h | h | h
  all_goals subst h
  all_goals exact hexChr_lt (by omega)

/-- With `ensure_ascii` set, every character emitted for a string character
is ASCII. -/
theorem escChar_ascii_lt {c : Char} {d : Char} (hd : d ∈ escChar true c) :
    d.toNat < 128 := by
  simp only [escChar] at hd
  repeat' split at hd
  all_goals first
  | (simp only [List.mem_cons, List.not_mem_nil, or_false] at hd
     rcases hd with h | h
     · subst h; decide
     · subst h; decide)
  | (simp only [List.mem_cons, List.not_mem_nil, or_false] at hd
     rcases hd with h | h | h
     · subst h; decide
     · subst h; decide
     · exact hex4_lt h)
  | (simp only [List.mem_append, List.mem_cons, List.not_mem_nil, or_false] at hd
     rcases hd with (h | h | h) | (h | h | h)
     · subst h; decide
     · subst h; decide
     · exact hex4_lt h
     · subst h; decide
     · subst h; decide
     · exact hex4_lt h)
  | (simp only [List.mem_singleton] at hd
     subst hd
     by_contra hcon
     rename_i hneg
     exact hneg ⟨by trivial, by omega⟩)

/-! ## Lemmas: the parser inverts `json.dumps` on plain flat objects -/

theorem string_mk_data (s : String) : String.mk s.data = s := rfl

theorem char_eq_of_toNat {c : Char} {n : Nat} (h : c.toNat = n) :
    c = Char.ofNat n := by
  rw [← h, Char.ofNat_toNat]

theorem plainChar_props {c : Char} (h : plainChar c = true) :
    32 ≤ c.toNat ∧ c.toNat ≤ 126 ∧ c ≠ '"' ∧ c ≠ '\\' := by
  simp only [plainChar, Bool.and_eq_true, Bool.not_eq_true', decide_eq_true_eq,
    decide_eq_false_iff_not] at h
  exact ⟨h.1.1.1, h.1.1.2, h.1.2, h.2⟩

/-- A plain character is emitted verbatim. -/
theorem escChar_plain {c : Char} (ascii : Bool) (h : plainChar c = true) :
    escChar ascii c = [c] := by
  obtain ⟨h1, h2, h3, h4⟩ := plainChar_props h
  have e34 : ¬(c.toNat = 34) := fun he => h3 (by rw [char_eq_of_toNat he])
  have e92 : ¬(c.toNat = 92) := fun he => h4 (by rw [char_eq_of_toNat he])
  simp only [escChar]
  rw [if_neg e34, if_neg e92, if_neg (by omega), if_neg (by omega), if_neg (by omega),
    if_neg (by omega), if_neg (by omega), if_neg (by omega),
    if_neg (by rintro ⟨-, hh⟩; omega)]

theorem flatMap_escChar_plain {l : List Char} (ascii : Bool)
    (h : ∀ c ∈ l, plainChar c = true) :
    l.flatMap (escChar ascii) = l := by
  induction l with
  | nil => rfl
  | cons c t ih =>
    rw [List.flatMap_cons, escChar_plain ascii (h c (by simp)),
      ih (fun d hd => h d (by simp [hd]))]
    rfl

/-- A plain string body is emitted verbatim between its quotes. -/
theorem escStr_plain {l : List Char} (ascii : Bool) (h : ∀ c ∈ l, plainChar c = true) :
    escStr ascii l = '"' :: l ++ ['"'] := by
  unfold escStr
  rw [flatMap_escChar_plain ascii h]

/-- Parsing a plain string body stops exactly at the closing quote. -/
theorem parseStrBodyF_plain {l : List Char} {f : Nat} {rest : List Char}
    (h : ∀ c ∈ l, plainChar c = true) (hf : l.length + 1 ≤ f) :
    parseStrBodyF f (l ++ '"' :: rest) = Except.ok (l, rest) := by
  induction l generalizing f with
  | nil =>
    rcases f with _ | f
    · omega
    · rfl
  | cons c t ih =>
    rcases f with _ | f
    · simp at hf
    obtain ⟨h1, h2, h3, h4⟩ := plainChar_props (h c (by simp))
    show (if c = '"' then Except.ok (([] : List Char), t ++ '"' :: rest)
      else if c = '\\' then
        match escStep (t ++ '"' :: rest) with
        | Except.ok (e, r2) => consStr e (parseStrBodyF f r2)
        | Except.error e2 => Except.error e2
      else if c.toNat < 32 then Except.error ("Control character in string")
      else consStr c (parseStrBodyF f (t ++ '"' :: rest))) = Except.ok (c :: t, rest)
    rw [if_neg h3, if_neg h4, if_neg (by omega)]
    rw [ih (fun d hd => h d (by simp [hd])) (by simp at hf; omega)]
    rfl

/-- Parsing a plain string literal body (entry point). -/
theorem parseStrBody_plain {l rest : List Char}
    (h : ∀ c ∈ l, plainChar c = true) :
    parseStrBody (l ++ '"' :: rest) = Except.ok (l, rest) :=
  parseStrBodyF_plain h (by simp)

/-! ### Integer literals -/

theorem natCharsFuel_succ (f n : Nat) :
    natCharsFuel (f + 1) n =
      if n < 10 then [Char.ofNat (48 + n)]
      else natCharsFuel f (n / 10) ++ [Char.ofNat (48 + n % 10)] := rfl

theorem natCharsFuel_digits {f n : Nat} {c : Char} (h : c ∈ natCharsFuel f n) :
    48 ≤ c.toNat ∧ c.toNat ≤ 57 := by
  induction f generalizing n with
  | zero => simp [natCharsFuel] at h
  | succ f ih =>
    rw [natCharsFuel_succ] at h
    by_cases hn : n < 10
    · rw [if_pos hn] at h
      simp only [List.mem_singleton] at h
      subst h
      rw [char_toNat_ofNat (by omega)]
      omega
    · rw [if_neg hn] at h
      rcases List.mem_append.mp h with hm | hm
      · exact ih hm
      · simp only [List.mem_singleton] at hm
        subst hm
        rw [char_toNat_ofNat (by omega)]
        omega

theorem natCharsFuel_ne_nil {f n : Nat} (hf : 1 ≤ f) : natCharsFuel f n ≠ [] := by
  rcases f with _ | f
  · omega
  rw [natCharsFuel_succ]
  by_cases hn : n < 10
  · rw [if_pos hn]; simp
  · rw [if_neg hn]; simp

theorem digitsToNat_append_one (l : List Char) (c : Char) :
    digitsToNat (l ++ [c]) = digitsToNat l * 10 + (c.toNat - 48) := by
  unfold digitsToNat
  rw [List.foldl_append]
  rfl

theorem digitsToNat_natCharsFuel {f n : Nat} (h : n < 10 ^ f) :
    digitsToNat (natCharsFuel f n) = n := by
  induction f generalizing n with
  | zero =>
    simp only [pow_zero, Nat.lt_one_iff] at h
    subst h
    rfl
  | succ f ih =>
    rw [natCharsFuel_succ]
    by_cases hn : n < 10
    · rw [if_pos hn]
      show (0 * 10 + ((Char.ofNat (48 + n)).toNat - 48)) = n
      rw [char_toNat_ofNat (by omega)]
      omega
    · rw [if_neg hn]
      rw [digitsToNat_append_one, char_toNat_ofNat (by omega)]
      rw [ih (by
        have hp : (10 : Nat) ^ (f + 1) = 10 ^ f * 10 := pow_succ 10 f
        rw [hp] at h
        exact Nat.div_lt_of_lt_mul (by omega))]
      omega

theorem digitsToNat_natChars (n : Nat) : digitsToNat (natChars n) = n := by
  unfold natChars
  exact digitsToNat_natCharsFuel
    (Nat.lt_of_lt_of_le (Nat.lt_pow_self (by norm_num) n)
      (Nat.pow_le_pow_right (by norm_num) (by omega)))

theorem isDig_of_bounds {c : Char} (h1 : 48 ≤ c.toNat) (h2 : c.toNat ≤ 57) :
    isDig c = true := by
  simp [isDig]
  omega

/-- The digit run of an integer literal stops exactly at a terminator. -/
theorem parseIntTail_natChars {m : Nat} {rest : List Char} (neg : Bool)
    (hr : numStop rest = true) :
    parseIntTail neg (natChars m ++ rest) =
      Except.ok ((if neg then -(m : Int) else (m : Int)), rest) := by
  have hdig : ∀ c ∈ natChars m, isDig c = true := by
    intro c hc
    obtain ⟨ha, hb⟩ := natCharsFuel_digits hc
    exact isDig_of_bounds ha hb
  have hstop : rest.takeWhile isDig = [] ∧ rest.dropWhile isDig = rest := by
    rcases rest with _ | ⟨r0, rt⟩
    · exact ⟨rfl, rfl⟩
    · simp only [numStop, Bool.and_eq_true, Bool.not_eq_true',
        decide_eq_false_iff_not] at hr
      constructor
      · exact List.takeWhile_cons_of_neg (by simp [hr.1.1.1])
      · rw [List.dropWhile_cons, if_neg (by simp [hr.1.1.1])]
  have htw : (natChars m ++ rest).takeWhile isDig = natChars m := by
    rw [List.takeWhile_append_of_pos hdig, hstop.1, List.append_nil]
  have hdw : (natChars m ++ rest).dropWhile isDig = rest := by
    rw [List.dropWhile_append_of_pos hdig, hstop.2]
  simp only [parseIntTail]
  rw [htw, hdw]
  rw [if_neg (by
    intro hempty
    exact natCharsFuel_ne_nil (f := m + 1) (n := m) (by omega)
      (List.isEmpty_iff.mp hempty))]
  rcases hre : rest with _ | ⟨r0, rt⟩
  · show Except.ok ((if neg then -(digitsToNat (natChars m) : Int)
        else (digitsToNat (natChars m) : Int)), ([] : List Char)) = _
    rw [digitsToNat_natChars]
  · rw [hre] at hr
    simp only [numStop, Bool.and_eq_true, Bool.not_eq_true',
      decide_eq_false_iff_not] at hr
    show (if r0 = '.' ∨ r0 = 'e' ∨ r0 = 'E' then Except.error ("Float literal outside model")
      else Except.ok ((if neg then -(digitsToNat (natChars m) : Int)
        else (digitsToNat (natChars m) : Int)), r0 :: rt)) = _
    rw [if_neg (by
      rintro (hh | hh | hh)
      · exact hr.1.1.2 hh
      · exact hr.1.2 hh
      · exact hr.2 hh)]
    rw [digitsToNat_natChars]

/-- An integer literal followed by a terminator parses back to the
integer. -/
theorem parseIntLit_intChars {i : Int} {rest : List Char}
    (hr : numStop rest = true) :
    parseIntLit (intChars i ++ rest) = Except.ok (i, rest) := by
  by_cases hi : i < 0
  · have hich : intChars i = '-' :: natChars i.natAbs := by
      simp [intChars, hi]
    rw [hich]
    show parseIntLit ('-' :: (natChars i.natAbs ++ rest)) = _
    simp only [parseIntLit, if_true]
    rw [parseIntTail_natChars true hr, if_pos rfl]
    have h2 : -(i.natAbs : Int) = i := by omega
    rw [h2]
  · have hich : intChars i = natChars i.natAbs := by
      simp [intChars, hi]
    rcases hnc : natChars i.natAbs with _ | ⟨c0, cs⟩
    · exact absurd hnc (natCharsFuel_ne_nil (by omega))
    have hmem : c0 ∈ natChars i.natAbs := by
      rw [hnc]; exact List.mem_cons_self _ _
    obtain ⟨ha0, hb0⟩ := natCharsFuel_digits hmem
    have hne : ¬(c0 = '-') := char_ne_of_toNat_ne (by
      rw [show ('-').toNat = 45 from rfl]; omega)
    rw [hich, hnc]
    show parseIntLit (c0 :: (cs ++ rest)) = _
    simp only [parseIntLit]
    rw [if_neg hne]
    rw [show c0 :: (cs ++ rest) = (c0 :: cs) ++ rest from rfl, ← hnc,
      parseIntTail_natChars false hr]
    have : (i.natAbs : Int) = i := by omega
    rw [if_neg (by simp), this]

theorem intChars_ne_nil (i : Int) : intChars i ≠ [] := by
  unfold intChars
  split
  · simp
  · exact natCharsFuel_ne_nil (by omega)

theorem intChars_head {i : Int} {c0 : Char} {cs : List Char}
    (h : intChars i = c0 :: cs) :
    c0.toNat = 45 ∨ (48 ≤ c0.toNat ∧ c0.toNat ≤ 57) := by
  unfold intChars at h
  split at h
  · rw [List.cons_eq_cons] at h
    left
    rw [← h.1]
    rfl
  · right
    refine natCharsFuel_digits (f := i.natAbs + 1) (n := i.natAbs) ?_
    show c0 ∈ natChars i.natAbs
    rw [h]
    exact List.mem_cons_self _ _

/-- A serialized scalar followed by a terminator parses back to itself. -/
theorem parseScalar_dumpVal {v : JVal} {rest : List Char}
    (hv : plainVal v = true) (hr : numStop rest = true) :
    parseScalar (dumpVal true v ++ rest) = Except.ok (v, rest) := by
  rcases v with s | i | b | _
  · have hplain : ∀ c ∈ s.data, plainChar c = true := by
      simp only [plainVal, plainStr, List.all_eq_true] at hv
      exact hv
    show parseScalar (escStr true s.data ++ rest) = _
    rw [escStr_plain true hplain]
    rw [show ('"' :: s.data ++ ['"']) ++ rest = '"' :: (s.data ++ '"' :: rest) by
      simp [List.append_assoc]]
    simp only [parseScalar, if_pos]
    rw [parseStrBody_plain hplain]
  · show parseScalar (intChars i ++ rest) = _
    rcases hic : intChars i with _ | ⟨c0, cs⟩
    · exact absurd hic (intChars_ne_nil i)
    have hh := intChars_head hic
    have hq : ¬(c0 = '"') := char_ne_of_toNat_ne (by
      rw [show ('"').toNat = 34 from rfl]; omega)
    have ht : ¬(c0 = 't') := char_ne_of_toNat_ne (by
      rw [show ('t').toNat = 116 from rfl]; omega)
    have hf : ¬(c0 = 'f') := char_ne_of_toNat_ne (by
      rw [show ('f').toNat = 102 from rfl]; omega)
    have hn : ¬(c0 = 'n') := char_ne_of_toNat_ne (by
      rw [show ('n').toNat = 110 from rfl]; omega)
    rw [List.cons_append]
    show parseScalar (c0 :: (cs ++ rest)) = _
    simp only [parseScalar]
    rw [if_neg hq, if_neg ht, if_neg hf, if_neg hn]
    rw [show c0 :: (cs ++ rest) = (c0 :: cs) ++ rest from rfl, ← hic,
      parseIntLit_intChars hr]
  · rcases b with _ | _
    · rfl
    · rfl
  · rfl

/-! ### Python dict semantics: `pySet`, `dictGet`, `foldSet` -/

theorem dictGet_pySet_self (o : JObj) (k : String) (v : JVal) :
    dictGet (pySet o k v) k = some v := by
  induction o with
  | nil => simp [pySet, dictGet]
  | cons kv t ih =>
    rcases kv with ⟨k0, v0⟩
    by_cases hk : k0 = k
    · subst hk
      simp [pySet, dictGet]
    · show dictGet (if k0 = k then (k, v) :: t else (k0, v0) :: pySet t k v) k = _
      rw [if_neg hk]
      show (if k0 = k then some v0 else dictGet (pySet t k v) k) = _
      rw [if_neg hk, ih]

theorem dictGet_pySet_ne {k2 k : String} (o : JObj) (v : JVal) (h : k2 ≠ k) :
    dictGet (pySet o k v) k2 = dictGet o k2 := by
  have hkk2 : ¬(k = k2) := fun he => h he.symm
  induction o with
  | nil =>
    show (if k = k2 then some v else dictGet [] k2) = dictGet [] k2
    rw [if_neg hkk2]
  | cons kv t ih =>
    rcases kv with ⟨k0, v0⟩
    by_cases hk : k0 = k
    · rw [hk]
      show dictGet (if k = k then (k, v) :: t else (k, v0) :: pySet t k v) k2 = _
      rw [if_pos rfl]
      show (if k = k2 then some v else dictGet t k2) = _
      rw [if_neg hkk2]
      show _ = (if k = k2 then some v0 else dictGet t k2)
      rw [if_neg hkk2]
    · show dictGet (if k0 = k then (k, v) :: t else (k0, v0) :: pySet t k v) k2 = _
      rw [if_neg hk]
      show (if k0 = k2 then some v0 else dictGet (pySet t k v) k2) = _
      rw [ih]
      rfl

theorem pySet_not_mem {o : JObj} {k : String} (v : JVal) (h : k ∉ objKeys o) :
    pySet o k v = o ++ [(k, v)] := by
  induction o with
  | nil => rfl
  | cons kv t ih =>
    rcases kv with ⟨k0, v0⟩
    simp only [objKeys, List.map_cons, List.mem_cons, not_or] at h
    show (if k0 = k then (k, v) :: t else (k0, v0) :: pySet t k v) = _
    rw [if_neg (fun he => h.1 he.symm)]
    rw [ih h.2]
    rfl

theorem objKeys_pySet_mem {o : JObj} {k : String} (v : JVal)
    (h : k ∈ objKeys o) : objKeys (pySet o k v) = objKeys o := by
  induction o with
  | nil => simp [objKeys] at h
  | cons kv t ih =>
    rcases kv with ⟨k0, v0⟩
    by_cases hk : k0 = k
    · subst hk
      show objKeys (if k0 = k0 then (k0, v) :: t else (k0, v0) :: pySet t k0 v) = _
      rw [if_pos rfl]
      rfl
    · simp only [objKeys, List.map_cons, List.mem_cons] at h
      rcases h with h | h
      · exact absurd h.symm hk
      · show objKeys (if k0 = k then (k, v) :: t else (k0, v0) :: pySet t k v) = _
        rw [if_neg hk]
        show k0 :: objKeys (pySet t k v) = _
        rw [ih h]
        rfl

theorem nodup_keys_pySet {o : JObj} {k : String} (v : JVal)
    (h : (objKeys o).Nodup) : (objKeys (pySet o k v)).Nodup := by
  by_cases hm : k ∈ objKeys o
  · rw [objKeys_pySet_mem v hm]
    exact h
  · rw [pySet_not_mem v hm]
    have hkeys : objKeys (o ++ [(k, v)]) = objKeys o ++ [k] := by simp [objKeys]
    rw [hkeys, List.nodup_append]
    exact ⟨h, by simp, by
      intro a ha hb
      simp only [List.mem_singleton] at hb
      exact hm (hb ▸ ha)⟩

theorem foldSet_disjoint {o : JObj} : ∀ {acc : JObj},
    (objKeys o).Nodup → (∀ k ∈ objKeys o, k ∉ objKeys acc) →
    foldSet acc o = acc ++ o := by
  induction o with
  | nil => intro acc _ _; simp [foldSet]
  | cons kv t ih =>
    intro acc hnd hdis
    rcases kv with ⟨k0, v0⟩
    show foldSet (pySet acc k0 v0) t = _
    simp only [objKeys, List.map_cons, List.nodup_cons] at hnd
    rw [pySet_not_mem v0 (hdis k0 (by simp [objKeys]))]
    rw [ih hnd.2 (by
      intro k2 hk2 hk2acc
      show False
      have hk2o : k2 ∈ objKeys ((k0, v0) :: t) := by
        simp only [objKeys, List.map_cons, List.mem_cons]
        right
        exact hk2
      have : objKeys (acc ++ [(k0, v0)]) = objKeys acc ++ [k0] := by
        simp [objKeys]
      rw [this] at hk2acc
      rcases List.mem_append.mp hk2acc with hc | hc
      · exact hdis k2 hk2o hc
      · simp only [List.mem_singleton] at hc
        subst hc
        exact hnd.1 hk2)]
    simp

/-- Folding a member list with distinct keys into an empty dict yields the
list itself. -/
theorem foldSet_nil {o : JObj} (hnd : (objKeys o).Nodup) : foldSet [] o = o := by
  rw [foldSet_disjoint hnd (by intro k _ hk; simp [objKeys] at hk)]
  rfl

/-! ### Whitespace and head-shape helpers -/

theorem jWs_false_of_toNat {c : Char} (h : 33 ≤ c.toNat) : jWs c = false := by
  have h1 : ¬(c = ' ') := char_ne_of_toNat_ne (by
    rw [show (' ').toNat = 32 from rfl]; omega)
  have h2 : ¬(c = '\t') := char_ne_of_toNat_ne (by
    rw [show ('\t').toNat = 9 from rfl]; omega)
  have h3 : ¬(c = '\n') := char_ne_of_toNat_ne (by
    rw [show ('\n').toNat = 10 from rfl]; omega)
  have h4 : ¬(c = '\r') := char_ne_of_toNat_ne (by
    rw [show ('\r').toNat = 13 from rfl]; omega)
  simp [jWs, h1, h2, h3, h4]

theorem skipWs_cons_of {c : Char} (h : jWs c = false) (r : List Char) :
    skipWs (c :: r) = c :: r := by
  unfold skipWs
  rw [List.dropWhile_cons, if_neg (by simp [h])]

/-- Every serialized scalar starts with a non-whitespace character. -/
theorem dumpVal_head (v : JVal) :
    ∃ c cs, dumpVal true v = c :: cs ∧ 33 ≤ c.toNat := by
  rcases v with s | i | b | _
  · exact ⟨'"', _, rfl, by rw [show ('"').toNat = 34 from rfl]; omega⟩
  · rcases hic : intChars i with _ | ⟨c0, cs⟩
    · exact absurd hic (intChars_ne_nil i)
    have := intChars_head hic
    exact ⟨c0, cs, hic, by omega⟩
  · rcases b with _ | _
    · exact ⟨'f', _, rfl, by rw [show ('f').toNat = 102 from rfl]; omega⟩
    · exact ⟨'t', _, rfl, by rw [show ('t').toNat = 116 from rfl]; omega⟩
  · exact ⟨'n', _, rfl, by rw [show ('n').toNat = 110 from rfl]; omega⟩

/-- A nonempty member list serializes starting with a quote. -/
theorem dumpMembers_cons_head (kv : String × JVal) (tt : JObj) :
    ∃ cs, dumpMembers true (kv :: tt) = '"' :: cs := by
  rcases kv with ⟨k2, v2⟩
  rcases tt with _ | ⟨x, xs⟩
  · exact ⟨_, rfl⟩
  · exact ⟨_, rfl⟩

/-! ### The object production inverts `dumpMembers` -/

theorem parseMembers_succ (f : Nat) (l : List Char) (acc : JObj) :
    parseMembers (f + 1) l acc =
      match skipWs l with
      | [] => Except.error ("Unterminated object")
      | c :: rest =>
        if c = Char.ofNat 125 then Except.ok (acc, rest)
        else if c = '"' then
          match parseOneMember acc rest with
          | Except.error e => Except.error e
          | Except.ok (acc2, r3) =>
            match skipWs r3 with
            | [] => Except.error ("Expecting delimiter")
            | c2 :: r4 =>
              if c2 = ',' then
                match skipWs r4 with
                | [] => Except.error ("Expecting property name")
                | c3 :: r5 =>
                  if c3 = '"' then parseMembers f (c3 :: r5) acc2
                  else Except.error ("Expecting property name")
              else if c2 = Char.ofNat 125 then Except.ok (acc2, r4)
              else Except.error ("Expecting delimiter")
        else Except.error ("Expecting property name") := rfl

/-- Skipping whitespace before a serialized scalar leaves it alone, also
after one leading space. -/
theorem skipWs_space_dumpVal (v : JVal) (tail : List Char) :
    skipWs (' ' :: (dumpVal true v ++ tail)) = dumpVal true v ++ tail := by
  obtain ⟨c, cs, hdv, hc⟩ := dumpVal_head v
  show skipWs (dumpVal true v ++ tail) = _
  rw [hdv, List.cons_append, skipWs_cons_of (jWs_false_of_toNat hc)]

/-- One serialized member parses back into one dict assignment. -/
theorem parseOneMember_dump {k : String} {v : JVal} {acc : JObj} {tail : List Char}
    (hk : ∀ c ∈ k.data, plainChar c = true) (hv : plainVal v = true)
    (hstop : numStop tail = true) :
    parseOneMember acc (k.data ++ '"' :: (':' :: ' ' :: (dumpVal true v ++ tail))) =
      Except.ok (pySet acc k v, tail) := by
  unfold parseOneMember
  rw [parseStrBody_plain hk]
  show (match parseScalar (skipWs (' ' :: (dumpVal true v ++ tail))) with
    | Except.error e => Except.error e
    | Except.ok (v2, r3) => Except.ok (pySet acc (String.mk k.data) v2, r3)) = _
  rw [skipWs_space_dumpVal, parseScalar_dumpVal hv hstop]

theorem numStop_comma (r : List Char) : numStop (',' :: r) = true := rfl

theorem numStop_rbrace (r : List Char) : numStop (Char.ofNat 125 :: r) = true := rfl

/-- Parsing the serialization of a member list, followed by the closing
brace, folds the members into the accumulator and stops after the brace. -/
theorem parseMembers_dump {o : JObj} : ∀ {acc : JObj} {fuel : Nat} {rest : List Char},
    plainObj o = true → o.length + 1 ≤ fuel →
    parseMembers fuel (dumpMembers true o ++ Char.ofNat 125 :: rest) acc =
      Except.ok (foldSet acc o, rest) := by
  induction o with
  | nil =>
    intro acc fuel rest _ hfuel
    rcases fuel with _ | f
    · omega
    · rfl
  | cons kv t ih =>
    intro acc fuel rest hp hfuel
    rcases kv with ⟨k, v⟩
    rcases fuel with _ | f
    · omega
    simp only [plainObj, List.all_cons, Bool.and_eq_true] at hp
    have hkp : ∀ c ∈ k.data, plainChar c = true := by
      have := hp.1.1
      simp only [plainStr, List.all_eq_true] at this
      exact this
    have hvp : plainVal v = true := hp.1.2
    have hpt : plainObj t = true := by
      simp only [plainObj, List.all_eq_true]
      intro kv2 hkv2
      have := hp.2
      simp only [List.all_eq_true] at this
      exact this kv2 hkv2
    rcases t with _ | ⟨m, tt⟩
    · -- last member: the serialization ends with the closing brace
      show parseMembers (f + 1)
        ((escStr true k.data ++ ':' :: ' ' :: dumpVal true v) ++ Char.ofNat 125 :: rest)
        acc = _
      rw [escStr_plain true hkp]
      rw [show (('"' :: k.data ++ ['"']) ++ ':' :: ' ' :: dumpVal true v) ++
          Char.ofNat 125 :: rest =
          '"' :: (k.data ++ '"' :: (':' :: ' ' :: (dumpVal true v ++
            Char.ofNat 125 :: rest))) by simp]
      rw [parseMembers_succ]
      show (match parseOneMember acc (k.data ++ '"' :: (':' :: ' ' ::
          (dumpVal true v ++ Char.ofNat 125 :: rest))) with
        | Except.error e => Except.error e
        | Except.ok (acc2, r3) =>
          match skipWs r3 with
          | [] => Except.error ("Expecting delimiter")
          | c2 :: r4 =>
            if c2 = ',' then
              match skipWs r4 with
              | [] => Except.error ("Expecting property name")
              | c3 :: r5 =>
                if c3 = '"' then parseMembers f (c3 :: r5) acc2
                else Except.error ("Expecting property name")
            else if c2 = Char.ofNat 125 then Except.ok (acc2, r4)
            else Except.error ("Expecting delimiter")) = _
      rw [parseOneMember_dump hkp hvp (numStop_rbrace rest)]
      rfl
    · -- a comma and further members follow
      show parseMembers (f + 1)
        ((escStr true k.data ++ ':' :: ' ' :: dumpVal true v ++
          ',' :: ' ' :: dumpMembers true (m :: tt)) ++ Char.ofNat 125 :: rest)
        acc = _
      rw [escStr_plain true hkp]
      rw [show (('"' :: k.data ++ ['"']) ++ ':' :: ' ' :: dumpVal true v ++
          ',' :: ' ' :: dumpMembers true (m :: tt)) ++ Char.ofNat 125 :: rest =
          '"' :: (k.data ++ '"' :: (':' :: ' ' :: (dumpVal true v ++
            ',' :: ' ' :: (dumpMembers true (m :: tt) ++ Char.ofNat 125 :: rest))))
          by simp]
      rw [parseMembers_succ]
      show (match parseOneMember acc (k.data ++ '"' :: (':' :: ' ' ::
          (dumpVal true v ++ ',' :: ' ' ::
            (dumpMembers true (m :: tt) ++ Char.ofNat 125 :: rest)))) with
        | Except.error e => Except.error e
        | Except.ok (acc2, r3) =>
          match skipWs r3 with
          | [] => Except.error ("Expecting delimiter")
          | c2 :: r4 =>
            if c2 = ',' then
              match skipWs r4 with
              | [] => Except.error ("Expecting property name")
              | c3 :: r5 =>
                if c3 = '"' then parseMembers f (c3 :: r5) acc2
                else Except.error ("Expecting property name")
            else if c2 = Char.ofNat 125 then Except.ok (acc2, r4)
            else Except.error ("Expecting delimiter")) = _
      rw [parseOneMember_dump hkp hvp (numStop_comma _)]
      obtain ⟨cs, hdm⟩ := dumpMembers_cons_head m tt
      show (match skipWs (' ' :: (dumpMembers true (m :: tt) ++
          Char.ofNat 125 :: rest)) with
        | [] => Except.error ("Expecting property name")
        | c3 :: r5 =>
          if c3 = '"' then parseMembers f (c3 :: r5) (pySet acc k v)
          else Except.error ("Expecting property name")) = _
      rw [show skipWs (' ' :: (dumpMembers true (m :: tt) ++ Char.ofNat 125 :: rest)) =
          dumpMembers true (m :: tt) ++ Char.ofNat 125 :: rest by
        show skipWs (dumpMembers true (m :: tt) ++ Char.ofNat 125 :: rest) = _
        rw [hdm, List.cons_append, skipWs_cons_of (jWs_false_of_toNat (by
          rw [show ('"').toNat = 34 from rfl]; omega))]]
      rw [hdm, List.cons_append]
      show parseMembers f ('"' :: (cs ++ Char.ofNat 125 :: rest)) (pySet acc k v) = _
      rw [← List.cons_append, ← hdm]
      rw [ih hpt (by simp at hfuel ⊢; omega)]
      rfl

/-- The serialization of a member list is at least as long as the list. -/
theorem dumpMembers_length (o : JObj) : o.length ≤ (dumpMembers true o).length := by
  induction o with
  | nil => simp [dumpMembers]
  | cons kv t ih =>
    rcases kv with ⟨k, v⟩
    rcases t with _ | ⟨m, tt⟩
    · show 1 ≤ (escStr true k.data ++ ':' :: ' ' :: dumpVal true v).length
      simp [escStr]
    · show (m :: tt).length + 1 ≤ (escStr true k.data ++ ':' :: ' ' ::
        dumpVal true v ++ ',' :: ' ' :: dumpMembers true (m :: tt)).length
      simp only [List.length_append, List.length_cons] at ih ⊢
      simp [escStr] at ih ⊢
      omega

/-- `json.loads` inverts `json.dumps` on plain flat objects with distinct
keys. -/
theorem jsonLoads_dumpsObj {o : JObj} (hp : plainObj o = true)
    (hnd : (objKeys o).Nodup) :
    jsonLoads (dumpsObj true o) = Except.ok (JTop.obj o) := by
  unfold jsonLoads dumpsObj
  rw [show (String.mk (dumpObj true o)).data = dumpObj true o from rfl]
  show (match skipWs (Char.ofNat 123 :: (dumpMembers true o ++ [Char.ofNat 125])) with
    | c :: r =>
      if c = Char.ofNat 123 then
        match parseMembers ((dumpObj true o).length + 1) r [] with
        | Except.ok (o2, rest) =>
            if (skipWs rest).isEmpty then Except.ok (JTop.obj o2)
            else Except.error ("Extra data")
        | Except.error e => Except.error e
      else
        match parseScalar (c :: r) with
        | Except.ok (v, rest) =>
            if (skipWs rest).isEmpty then Except.ok (JTop.scalar v)
            else Except.error ("Extra data")
        | Except.error e => Except.error e
    | [] => Except.error ("Expecting value")) = _
  rw [skipWs_cons_of (jWs_false_of_toNat (by
    rw [show (Char.ofNat 123).toNat = 123 from char_toNat_ofNat (by omega)]; omega))]
  show (match parseMembers ((dumpObj true o).length + 1)
      (dumpMembers true o ++ [Char.ofNat 125]) [] with
    | Except.ok (o2, rest) =>
        if (skipWs rest).isEmpty then Except.ok (JTop.obj o2)
        else Except.error ("Extra data")
    | Except.error e => Except.error e) = _
  have hfuel : o.length + 1 ≤ (dumpObj true o).length + 1 := by
    have h1 := dumpMembers_length o
    have h2 : (dumpObj true o).length = (dumpMembers true o).length + 2 := by
      simp [dumpObj]
    omega
  rw [show dumpMembers true o ++ [Char.ofNat 125] =
      dumpMembers true o ++ Char.ofNat 125 :: [] from rfl]
  rw [parseMembers_dump hp hfuel]
  rw [foldSet_nil hnd]
  rfl

/-! ### `json.dumps` with `ensure_ascii` emits only ASCII -/

theorem intChars_lt_128 {i : Int} {c : Char} (h : c ∈ intChars i) :
    c.toNat < 128 := by
  unfold intChars at h
  split at h
  · simp only [List.mem_cons] at h
    rcases h with h | h
    · subst h; decide
    · obtain ⟨_, hb⟩ := natCharsFuel_digits h
      omega
  · obtain ⟨_, hb⟩ := natCharsFuel_digits h
    omega

theorem escStr_lt_128 {l : List Char} {c : Char} (h : c ∈ escStr true l) :
    c.toNat < 128 := by
  unfold escStr at h
  rcases List.mem_cons.mp h with h | h
  · subst h; decide
  rcases List.mem_append.mp h with h | h
  · obtain ⟨d, _, hd⟩ := List.mem_flatMap.mp h
    exact escChar_ascii_lt hd
  · simp only [List.mem_singleton] at h
    subst h; decide

theorem dumpVal_lt_128 {v : JVal} {c : Char} (h : c ∈ dumpVal true v) :
    c.toNat < 128 := by
  rcases v with s | i | b | _
  · exact escStr_lt_128 h
  · exact intChars_lt_128 h
  · rcases b with _ | _
    · simp only [dumpVal, List.mem_cons, List.not_mem_nil, or_false] at h
      rcases h with h | h | h | h | h
      all_goals (subst h; decide)
    · simp only [dumpVal, List.mem_cons, List.not_mem_nil, or_false] at h
      rcases h with h | h | h | h
      all_goals (subst h; decide)
  · simp only [dumpVal, List.mem_cons, List.not_mem_nil, or_false] at h
    rcases h with h | h | h | h
    all_goals (subst h; decide)

theorem dumpMembers_lt_128 {o : JObj} {c : Char} (h : c ∈ dumpMembers true o) :
    c.toNat < 128 := by
  induction o with
  | nil => simp [dumpMembers] at h
  | cons kv t ih =>
    rcases kv with ⟨k, v⟩
    rcases t with _ | ⟨m, tt⟩
    · have h2 : c ∈ escStr true k.data ++ ':' :: ' ' :: dumpVal true v := h
      simp only [List.mem_append, List.mem_cons] at h2
      rcases h2 with h2 | h2 | h2 | h2
      · exact escStr_lt_128 h2
      · subst h2; decide
      · subst h2; decide
      · exact dumpVal_lt_128 h2
    · have h2 : c ∈ (escStr true k.data ++ ':' :: ' ' :: dumpVal true v) ++
          ',' :: ' ' :: dumpMembers true (m :: tt) := h
      rcases List.mem_append.mp h2 with h3 | h3
      · rcases List.mem_append.mp h3 with h4 | h4
        · exact escStr_lt_128 h4
        rcases List.mem_cons.mp h4 with h5 | h5
        · subst h5; decide
        rcases List.mem_cons.mp h5 with h6 | h6
        · subst h6; decide
        · exact dumpVal_lt_128 h6
      · rcases List.mem_cons.mp h3 with h4 | h4
        · subst h4; decide
        rcases List.mem_cons.mp h4 with h5 | h5
        · subst h5; decide
        · exact ih h5

theorem dumpObj_lt_128 {o : JObj} {c : Char} (h : c ∈ dumpObj true o) :
    c.toNat < 128 := by
  unfold dumpObj at h
  rcases List.mem_cons.mp h with h1 | h1
  · subst h1
    rw [char_toNat_ofNat (by omega)]
    omega
  rcases List.mem_append.mp h1 with h2 | h2
  · exact dumpMembers_lt_128 h2
  · simp only [List.mem_singleton] at h2
    subst h2
    rw [char_toNat_ofNat (by omega)]
    omega

/-! ### `str.split` -/

theorem splitOn_no_sep {sep : Char} {l : List Char} (h : ∀ c ∈ l, c ≠ sep) :
    splitOn sep l = [l] := by
  induction l with
  | nil => rfl
  | cons c t ih =>
    show (if c = sep then [] :: splitOn sep t
      else match splitOn sep t with
        | h :: r => (c :: h) :: r
        | [] => [[c]]) = _
    rw [if_neg (h c (by simp)), ih (fun d hd => h d (by simp [hd]))]

theorem splitOn_append {sep : Char} {l1 : List Char} (r : List Char)
    (h : ∀ c ∈ l1, c ≠ sep) :
    splitOn sep (l1 ++ sep :: r) = l1 :: splitOn sep r := by
  induction l1 with
  | nil =>
    show (if sep = sep then [] :: splitOn sep r
      else match splitOn sep r with
        | h :: rr => (sep :: h) :: rr
        | [] => [[sep]]) = _
    rw [if_pos rfl]
  | cons c t ih =>
    show (if c = sep then [] :: splitOn sep (t ++ sep :: r)
      else match splitOn sep (t ++ sep :: r) with
        | h :: rr => (c :: h) :: rr
        | [] => [[c]]) = _
    rw [if_neg (h c (by simp)), ih (fun d hd => h d (by simp [hd]))]

/-! ### Plainness and key distinctness are preserved by dict assignment -/

theorem plainObj_pySet {o : JObj} {k : String} {v : JVal}
    (ho : plainObj o = true) (hk : plainStr k = true) (hv : plainVal v = true) :
    plainObj (pySet o k v) = true := by
  induction o with
  | nil => simp [pySet, plainObj, hk, hv]
  | cons kv t ih =>
    rcases kv with ⟨k0, v0⟩
    simp only [plainObj, List.all_cons, Bool.and_eq_true] at ho
    by_cases he : k0 = k
    · show plainObj (if k0 = k then (k, v) :: t else (k0, v0) :: pySet t k v) = true
      rw [if_pos he]
      simp only [plainObj, List.all_cons, Bool.and_eq_true]
      exact ⟨⟨hk, hv⟩, ho.2⟩
    · show plainObj (if k0 = k then (k, v) :: t else (k0, v0) :: pySet t k v) = true
      rw [if_neg he]
      simp only [plainObj, List.all_cons, Bool.and_eq_true]
      exact ⟨ho.1, ih ho.2⟩

/-! ## Lemmas: the token codec round trip -/

theorem jsonSeg_eq (o : JObj) :
    Auth.jsonSeg o = encB64NP (strBytes (dumpsObj true o)) := by
  unfold Auth.jsonSeg
  rw [rstrip_encB64]

theorem jsonSeg_no_dot {o : JObj} {c : Char} (h : c ∈ Auth.jsonSeg o) : c ≠ '.' := by
  rw [jsonSeg_eq] at h
  exact encB64NP_no_dot h

theorem sigSeg_no_dot {sig : List Nat} {c : Char}
    (h : c ∈ rstripEq (encB64 sig)) : c ≠ '.' := by
  rw [rstrip_encB64] at h
  exact encB64NP_no_dot h

theorem data_mk (l : List Char) : (String.mk l).data = l := rfl

theorem dot_data : (".").data = ['.'] := rfl

/-- The characters of a freshly created token: the three segments joined
by dots. -/
theorem create_token_data (mac : String → String → List Nat) (k : String)
    (now : Nat) (c : JObj) :
    (Auth.create_jwt_token mac k now c).data =
      Auth.jsonSeg Auth.headerObj ++ '.' ::
        (Auth.jsonSeg (Auth.addTimestamps now c) ++ '.' ::
          rstripEq (encB64 (mac k (Auth.signingInput now c)))) := by
  show (Auth.signingInput now c ++ "." ++
    String.mk (rstripEq (encB64 (mac k (Auth.signingInput now c))))).data = _
  unfold Auth.signingInput
  simp only [String.data_append, data_mk, dot_data]
  simp [List.append_assoc]

/-- Splitting a freshly created token on dots yields its three segments. -/
theorem split_create (mac : String → String → List Nat) (k : String)
    (now : Nat) (c : JObj) :
    splitOn '.' (Auth.create_jwt_token mac k now c).data =
      [Auth.jsonSeg Auth.headerObj, Auth.jsonSeg (Auth.addTimestamps now c),
       rstripEq (encB64 (mac k (Auth.signingInput now c)))] := by
  rw [create_token_data]
  rw [splitOn_append _ (fun d hd => jsonSeg_no_dot hd)]
  rw [splitOn_append _ (fun d hd => jsonSeg_no_dot hd)]
  rw [splitOn_no_sep (fun d hd => sigSeg_no_dot hd)]

theorem plainObj_addTimestamps {c : JObj} (now : Nat) (h : plainObj c = true) :
    plainObj (Auth.addTimestamps now c) = true := by
  unfold Auth.addTimestamps
  exact plainObj_pySet (plainObj_pySet h rfl rfl) rfl rfl

theorem nodup_addTimestamps {c : JObj} (now : Nat) (h : (objKeys c).Nodup) :
    (objKeys (Auth.addTimestamps now c)).Nodup :=
  nodup_keys_pySet _ (nodup_keys_pySet _ h)

theorem dictGet_exp_addTimestamps (now : Nat) (c : JObj) :
    dictGet (Auth.addTimestamps now c) ("exp") =
      some (JVal.jint ((now : Int) + 7 * 24 * 3600)) := by
  unfold Auth.addTimestamps
  rw [dictGet_pySet_ne _ _ (by decide), dictGet_pySet_self]

theorem expLess_addTimestamps (now now2 : Nat) (c : JObj) :
    Auth.expLess (Auth.addTimestamps now c) now2 =
      Except.ok (decide (((now : Int) + 7 * 24 * 3600) < (now2 : Int))) := by
  unfold Auth.expLess
  rw [dictGet_exp_addTimestamps]

theorem decB64_jsonSeg (o : JObj) :
    decB64 (padRestore (Auth.jsonSeg o)) = Except.ok (strBytes (dumpsObj true o)) := by
  rw [jsonSeg_eq]
  exact decB64_padRestore_encB64NP (fun b hb => listBytes_lt_256 hb)

theorem decB64_sig (sig : List Nat) (hb : ∀ b ∈ sig, b < 256) :
    decB64 (padRestore (rstripEq (encB64 sig))) = Except.ok sig := by
  rw [rstrip_encB64]
  exact decB64_padRestore_encB64NP hb

theorem utf8Dec_dumpsObj (o : JObj) :
    utf8Dec (strBytes (dumpsObj true o)) = Except.ok (dumpObj true o) := by
  show utf8Dec (listBytes (dumpObj true o)) = _
  exact utf8Dec_listBytes_ascii (fun c hc => dumpObj_lt_128 hc)

/-- Verification of a freshly created token, with the matching secret and
a verification time at or before the expiry, inside the `try` body:
it succeeds with the timestamped payload. -/
theorem verifyBody_create (mac : String → String → List Nat) (k : String)
    (now now2 : Nat) (c : JObj)
    (hb : ∀ b ∈ mac k (Auth.signingInput now c), b < 256)
    (hp : plainObj c = true) (hnd : (objKeys c).Nodup)
    (hexp : now2 ≤ now + 7 * 24 * 3600) :
    Auth.verifyBody mac k now2 (Auth.create_jwt_token mac k now c) =
      Except.ok (some (Auth.addTimestamps now c)) := by
  unfold Auth.verifyBody
  rw [split_create]
  show ((decB64 (padRestore (rstripEq (encB64 (mac k (Auth.signingInput now c)))))).bind
    (fun actual_signature =>
      if mac k (Auth.signingInput now c) ≠ actual_signature then Except.ok none
      else
        (decB64 (padRestore (Auth.jsonSeg (Auth.addTimestamps now c)))).bind
          (fun payloadBytes =>
            (utf8Dec payloadBytes).bind (fun payloadChars =>
              (jsonLoads (String.mk payloadChars)).bind (fun parsed =>
                match parsed with
                | JTop.obj payload =>
                  (Auth.expLess payload now2).bind (fun tooOld =>
                    if tooOld then Except.ok none else Except.ok (some payload))
                | JTop.scalar _ => Except.error ("AttributeError")))))) = _
  rw [decB64_sig _ hb]
  simp only [Except.bind]
  rw [if_neg (by simp)]
  rw [decB64_jsonSeg]
  simp only [Except.bind]
  rw [utf8Dec_dumpsObj]
  simp only [Except.bind]
  rw [show String.mk (dumpObj true (Auth.addTimestamps now c)) =
    dumpsObj true (Auth.addTimestamps now c) from rfl]
  rw [jsonLoads_dumpsObj (plainObj_addTimestamps now hp) (nodup_addTimestamps now hnd)]
  simp only [Except.bind]
  rw [expLess_addTimestamps]
  simp only [Except.bind]
  rw [if_neg (by
    simp only [decide_eq_true_eq]
    omega)]

/-- Verification of a freshly created token with a different verification
secret, inside the `try` body: when the two MACs of the signing input
differ, the comparison fails and the token is rejected. -/
theorem verifyBody_create_wrong (mac : String → String → List Nat) (k k2 : String)
    (now now2 : Nat) (c : JObj)
    (hb : ∀ b ∈ mac k (Auth.signingInput now c), b < 256)
    (hne : mac k2 (Auth.signingInput now c) ≠ mac k (Auth.signingInput now c)) :
    Auth.verifyBody mac k2 now2 (Auth.create_jwt_token mac k now c) =
      Except.ok none := by
  unfold Auth.verifyBody
  rw [split_create]
  show ((decB64 (padRestore (rstripEq (encB64 (mac k (Auth.signingInput now c)))))).bind
    (fun actual_signature =>
      if mac k2 (Auth.signingInput now c) ≠ actual_signature then Except.ok none
      else
        (decB64 (padRestore (Auth.jsonSeg (Auth.addTimestamps now c)))).bind
          (fun payloadBytes =>
            (utf8Dec payloadBytes).bind (fun payloadChars =>
              (jsonLoads (String.mk payloadChars)).bind (fun parsed =>
                match parsed with
                | JTop.obj payload =>
                  (Auth.expLess payload now2).bind (fun tooOld =>
                    if tooOld then Except.ok none else Except.ok (some payload))
                | JTop.scalar _ => Except.error ("AttributeError")))))) = _
  rw [decB64_sig _ hb]
  simp only [Except.bind]
  rw [if_pos hne]

/-- Round trip at the `verify_jwt_token` level. -/
theorem verify_create (mac : String → String → List Nat) (k : String)
    (now now2 : Nat) (c : JObj)
    (hb : ∀ b ∈ mac k (Auth.signingInput now c), b < 256)
    (hp : plainObj c = true) (hnd : (objKeys c).Nodup)
    (hexp : now2 ≤ now + 7 * 24 * 3600) :
    Auth.verify_jwt_token mac k now2 (Auth.create_jwt_token mac k now c) =
      some (Auth.addTimestamps now c) := by
  unfold Auth.verify_jwt_token
  rw [verifyBody_create mac k now now2 c hb hp hnd hexp]

/-- Wrong-secret rejection at the `verify_jwt_token` level. -/
theorem verify_create_wrong (mac : String → String → List Nat) (k k2 : String)
    (now now2 : Nat) (c : JObj)
    (hb : ∀ b ∈ mac k (Auth.signingInput now c), b < 256)
    (hne : mac k2 (Auth.signingInput now c) ≠ mac k (Auth.signingInput now c)) :
    Auth.verify_jwt_token mac k2 now2 (Auth.create_jwt_token mac k now c) = none := by
  unfold Auth.verify_jwt_token
  rw [verifyBody_create_wrong mac k k2 now now2 c hb hne]

/-! ## Lemmas: uniform failure of the GET session check -/

/-- Whenever cookie extraction yields no token, an empty token, or a token
the verifier rejects, the GET branch answers the one fixed 401 response. -/
theorem authGet_fail_uniform (mac : String → String → List Nat) (k : String)
    (now : Nat) (db : Db) (hdrs : List (String × String))
    (h : ∀ t, Auth.extract_token_from_cookies
        (Option.getD (hdrs.lookup ("Cookie")) ("")) = some t →
        t.isEmpty = true ∨ Auth.verify_jwt_token mac k now t = none) :
    Auth.handlerGet mac k now db hdrs = Auth.error_response ("Invalid token") 401 := by
  simp only [Auth.handlerGet]
  rcases hex : Auth.extract_token_from_cookies
      (Option.getD (hdrs.lookup ("Cookie")) ("")) with _ | t
  · rfl
  · show (if t.isEmpty = true then Auth.error_response ("Invalid token") 401
      else match Auth.verify_jwt_token mac k now t with
        | none => Auth.error_response ("Invalid token") 401
        | some user_data => Auth.afterVerify db user_data) =
      Auth.error_response ("Invalid token") 401
    by_cases he : t.isEmpty = true
    · rw [if_pos he]
    · rw [if_neg he]
      rcases h t hex with h1 | h2
      · exact absurd h1 he
      · rw [h2]

/-- Inversion of a successful verification: when the `try` body of
`verify_jwt_token` returns a payload, it ran the expiry comparison on that
payload and the comparison answered false. -/
theorem verifyBody_some_expLess (mac : String → String → List Nat) (k : String)
    (now : Nat) (tok : String) (p : JObj)
    (h : Auth.verifyBody mac k now tok = Except.ok (some p)) :
    Auth.expLess p now = Except.ok false := by
  simp only [Auth.verifyBody] at h
  rcases hs : splitOn '.' tok.data with _ | ⟨a, t1⟩
  · rw [hs] at h; simp at h
  · rcases t1 with _ | ⟨b, t2⟩
    · rw [hs] at h; simp at h
    · rcases t2 with _ | ⟨c, t3⟩
      · rw [hs] at h; simp at h
      · rcases t3 with _ | ⟨d, t4⟩
        · rw [hs] at h
          have h2 : ((decB64 (padRestore c)).bind (fun actual_signature =>
              if mac k (String.mk a ++ "." ++ String.mk b) ≠ actual_signature then
                Except.ok none
              else
                (decB64 (padRestore b)).bind (fun payloadBytes =>
                  (utf8Dec payloadBytes).bind (fun payloadChars =>
                    (jsonLoads (String.mk payloadChars)).bind (fun parsed =>
                      match parsed with
                      | JTop.obj payload =>
                        (Auth.expLess payload now).bind (fun tooOld =>
                          if tooOld then Except.ok none
                          else Except.ok (some payload))
                      | JTop.scalar _ => Except.error ("AttributeError")))))) =
              Except.ok (some p) := h
          rcases hd : decB64 (padRestore c) with e | sig
          · rw [hd] at h2; simp [Except.bind] at h2
          · rw [hd] at h2
            simp only [Except.bind] at h2
            by_cases hsig : mac k (String.mk a ++ "." ++ String.mk b) ≠ sig
            · rw [if_pos hsig] at h2; simp at h2
            · rw [if_neg hsig] at h2
              rcases hd2 : decB64 (padRestore b) with e | pb
              · rw [hd2] at h2; simp [Except.bind] at h2
              · rw [hd2] at h2
                simp only [Except.bind] at h2
                rcases hd3 : utf8Dec pb with e | pc
                · rw [hd3] at h2; simp [Except.bind] at h2
                · rw [hd3] at h2
                  simp only [Except.bind] at h2
                  rcases hd4 : jsonLoads (String.mk pc) with e | (pl | sv)
                  · rw [hd4] at h2; simp [Except.bind] at h2
                  · rw [hd4] at h2
                    simp only [Except.bind] at h2
                    have h3 : (Auth.expLess pl now).bind (fun tooOld =>
                        if tooOld then Except.ok none
                        else Except.ok (some pl)) = Except.ok (some p) := h2
                    rcases he : Auth.expLess pl now with e | tooOld
                    · rw [he] at h3; simp [Except.bind] at h3
                    · rw [he] at h3
                      simp only [Except.bind] at h3
                      cases tooOld
                      · simp at h3
                        subst h3
                        exact he
                      · simp at h3
                  · rw [hd4] at h2; simp [Except.bind] at h2
        · rw [hs] at h; simp at h

/-- C1.  The claim as written is refuted (see the counterexample: a token
whose `exp` equals the clock is accepted, since line 342 tests
`payload.get('exp', 0) < time.time()` with a strict `<`).  Amended form,
proved from the source model: whenever `verify_jwt_token` returns a payload,
the payload's `exp` entry is at least the current time (missing `exp`
defaults to 0, so it passes only at time 0; a boolean `exp` is compared as
0 or 1). -/
theorem claim_C1 (mac : String → String → List Nat) (k : String) (now : Nat)
    (tok : String) (p : JObj)
    (h : Auth.verify_jwt_token mac k now tok = some p) :
    match dictGet p ("exp") with
    | none => now = 0
    | some (JVal.jint e) => (now : Int) ≤ e
    | some (JVal.jbool b) => (now : Int) ≤ (if b then 1 else 0)
    | some (JVal.jstr _) => False
    | some JVal.jnull => False := by
  have hb : Auth.verifyBody mac k now tok = Except.ok (some p) := by
    unfold Auth.verify_jwt_token at h
    rcases hv : Auth.verifyBody mac k now tok with e | r
    · rw [hv] at h
      exact Option.noConfusion h
    · rw [hv] at h
      exact congrArg Except.ok h
  have he := verifyBody_some_expLess mac k now tok p hb
  unfold Auth.expLess at he
  rcases hd : dictGet p ("exp") with _ | v
  · rw [hd] at he
    simp only [hd]
    simp only [Except.ok.injEq, decide_eq_false_iff_not, not_lt] at he
    omega
  · cases v with
    | jstr s => rw [hd] at he; simp only [hd]; simp at he
    | jint e =>
      rw [hd] at he
      simp only [hd]
      simp only [Except.ok.injEq, decide_eq_false_iff_not, not_lt] at he
      exact he
    | jbool b =>
      rw [hd] at he
      simp only [hd]
      simp only [Except.ok.injEq, decide_eq_false_iff_not, not_lt] at he
      exact he
    | jnull => rw [hd] at he; simp only [hd]; simp at he

/-- C1, counterexample to the claim as frozen: a correctly signed token is
verified at the exact moment its `exp` entry names — the claim requires
rejection, but the code accepts it and returns the payload. -/
theorem claim_C1_counterexample :
    Auth.verify_jwt_token macDemo ("k") (1000 + 7 * 24 * 3600)
        (Auth.create_jwt_token macDemo ("k") 1000 demoClaims) =
      some (Auth.addTimestamps 1000 demoClaims) ∧
    dictGet (Auth.addTimestamps 1000 demoClaims) ("exp") =
      some (JVal.jint (((1000 : Nat) : Int) + 7 * 24 * 3600)) :=
  ⟨verify_create macDemo ("k") 1000 (1000 + 7 * 24 * 3600) demoClaims
    (by decide) (by decide) (by decide) (le_refl _),
   dictGet_exp_addTimestamps 1000 demoClaims⟩

/-- C1, witness: the amended bound instantiated on a concrete accepted
token — verification at time 1000 succeeds and the bound
`now ≤ exp` holds there. -/
theorem claim_C1_witness :
    Auth.verify_jwt_token macDemo ("k") 1000
        (Auth.create_jwt_token macDemo ("k") 1000 demoClaims) =
      some (Auth.addTimestamps 1000 demoClaims) ∧
    ((1000 : Nat) : Int) ≤ ((1000 : Nat) : Int) + 7 * 24 * 3600 := by
  have h := verify_create macDemo ("k") 1000 1000 demoClaims (by decide) (by decide)
    (by decide) (by decide)
  exact ⟨h, claim_C1 macDemo ("k") 1000
    (Auth.create_jwt_token macDemo ("k") 1000 demoClaims)
    (Auth.addTimestamps 1000 demoClaims) h⟩

/-- C5: user-enumeration resistance of reset issuance.  In both modules the
response of the reset handler does not depend on the user store at all — in
particular it is identical for an email that matches a user and for one
that matches none. -/
theorem claim_C5 (emailRaw rng : String) (now : Nat) (db db2 : Db) :
    (Auth.handle_reset_password db emailRaw rng now).1 =
      (Auth.handle_reset_password db2 emailRaw rng now).1 ∧
    (UserAuth.handle_reset_password db emailRaw).1 =
      (UserAuth.handle_reset_password db2 emailRaw).1 := by
  constructor
  · simp only [Auth.handle_reset_password]
    by_cases he : (pyLowerStrip emailRaw).isEmpty = true
    · rw [if_pos he, if_pos he]
    · rw [if_neg he, if_neg he]
      rcases findUserByEmail db (pyLowerStrip emailRaw) with _ | u <;>
        rcases findUserByEmail db2 (pyLowerStrip emailRaw) with _ | u2 <;> rfl
  · simp only [UserAuth.handle_reset_password]
    by_cases he : (pyLowerStrip emailRaw).isEmpty = true
    · rw [if_pos he, if_pos he]
    · rw [if_neg he, if_neg he]

/-- C7: fixed 7-day time-to-live.  Every issued token is exactly
header.payload.signature over the claims with timestamps added, and in both
modules the added timestamps are `iat = now` and `exp = now + 604800`
(`7 * 24 * 3600`); no other expiry enters `create_jwt_token`. -/
theorem claim_C7 (mac : String → String → List Nat) (k : String) (now : Nat)
    (c : JObj) :
    Auth.create_jwt_token mac k now c =
      String.mk (Auth.jsonSeg Auth.headerObj) ++ "." ++
        String.mk (Auth.jsonSeg (Auth.addTimestamps now c)) ++ "." ++
        String.mk (rstripEq (encB64 (mac k (Auth.signingInput now c)))) ∧
    dictGet (Auth.addTimestamps now c) ("iat") = some (JVal.jint (now : Int)) ∧
    dictGet (Auth.addTimestamps now c) ("exp") =
      some (JVal.jint ((now : Int) + 7 * 24 * 3600)) ∧
    dictGet (UserAuth.addTimestamps now c) ("iat") =
      some (JVal.jint (now : Int)) ∧
    dictGet (UserAuth.addTimestamps now c) ("exp") =
      some (JVal.jint ((now : Int) + 7 * 24 * 3600)) := by
  refine ⟨rfl, ?_, dictGet_exp_addTimestamps now c, ?_, ?_⟩
  · unfold Auth.addTimestamps
    exact dictGet_pySet_self _ _ _
  · unfold UserAuth.addTimestamps
    exact dictGet_pySet_self _ _ _
  · unfold UserAuth.addTimestamps
    rw [dictGet_pySet_ne _ _ (by decide), dictGet_pySet_self]

/-- C9: token verification is total.  In the model an `Except.error` of the
`try` body marks a raised Python exception; `verify_jwt_token` maps every
such outcome to `none` and every normal outcome to itself, so for each
input string it answers a payload or `None` and never propagates an
exception — in both modules. -/
theorem claim_C9 (mac : String → String → List Nat) (k : String) (now : Nat)
    (tok : String) :
    (∀ e, Auth.verifyBody mac k now tok = Except.error e →
        Auth.verify_jwt_token mac k now tok = none) ∧
    (∀ r, Auth.verifyBody mac k now tok = Except.ok r →
        Auth.verify_jwt_token mac k now tok = r) ∧
    (∀ e, UserAuth.verifyBody mac k now tok = Except.error e →
        UserAuth.verify_jwt_token mac k now tok = none) ∧
    (∀ r, UserAuth.verifyBody mac k now tok = Except.ok r →
        UserAuth.verify_jwt_token mac k now tok = r) := by
  refine ⟨fun e he => ?_, fun r hr => ?_, fun e he => ?_, fun r hr => ?_⟩
  · unfold Auth.verify_jwt_token; rw [he]
  · unfold Auth.verify_jwt_token; rw [hr]
  · unfold UserAuth.verify_jwt_token; rw [he]
  · unfold UserAuth.verify_jwt_token; rw [hr]

/-- C10: the duplicated codecs agree.  The token creator and the verifier of
`backend/auth/index.py` and of `backend/user-auth/index.py` are the same
function, definitionally: same token string for the same secret, clock and
claims, and the same verification result on every token and secret. -/
theorem claim_C10 : Auth.create_jwt_token = UserAuth.create_jwt_token ∧
    Auth.verify_jwt_token = UserAuth.verify_jwt_token :=
  ⟨rfl, rfl⟩

/-- C6: uniform rejection without cause leakage.  Any two GET session-check
requests whose tokens fail for any reasons (no cookie, empty token, or a
token the verifier rejects — malformed, wrong segment count, bad signature
or expired all make `verify_jwt_token` answer `None`) receive the same
response, namely the one fixed `error_response('Invalid token', 401)`. -/
theorem claim_C6 (mac1 mac2 : String → String → List Nat) (k1 k2 : String)
    (now1 now2 : Nat) (db1 db2 : Db) (hdrs1 hdrs2 : List (String × String))
    (h1 : ∀ t, Auth.extract_token_from_cookies
        (Option.getD (hdrs1.lookup ("Cookie")) ("")) = some t →
        t.isEmpty = true ∨ Auth.verify_jwt_token mac1 k1 now1 t = none)
    (h2 : ∀ t, Auth.extract_token_from_cookies
        (Option.getD (hdrs2.lookup ("Cookie")) ("")) = some t →
        t.isEmpty = true ∨ Auth.verify_jwt_token mac2 k2 now2 t = none) :
    Auth.handlerGet mac1 k1 now1 db1 hdrs1 =
      Auth.handlerGet mac2 k2 now2 db2 hdrs2 ∧
    Auth.handlerGet mac1 k1 now1 db1 hdrs1 =
      Auth.error_response ("Invalid token") 401 := by
  have e1 := authGet_fail_uniform mac1 k1 now1 db1 hdrs1 h1
  have e2 := authGet_fail_uniform mac2 k2 now2 db2 hdrs2 h2
  exact ⟨e1.trans e2.symm, e1⟩

/-- C6, witness: a request with no cookie at all and a request carrying an
unverifiable cookie token receive the identical fixed 401 response. -/
theorem claim_C6_witness :
    Auth.handlerGet macDemo ("k") 5 demoDb [] =
      Auth.handlerGet macDemo ("k") 5 [] [(("Cookie"), ("auth_token=abc"))] ∧
    Auth.handlerGet macDemo ("k") 5 demoDb [] =
      Auth.error_response ("Invalid token") 401 :=
  claim_C6 macDemo macDemo ("k") ("k") 5 5 demoDb [] []
    [(("Cookie"), ("auth_token=abc"))]
    (fun t ht => Option.noConfusion
      (show (none : Option String) = some t from ht))
    (fun t ht => Or.inr (by
      have ht2 : some ("abc") = some t := ht
      injection ht2 with h3
      rw [← h3]
      rfl))

/-- C8.  The claim as written is refuted: the GET session-check handler of
both modules reads `headers['Cookie']` only and never the `Authorization`
header, so a Bearer header is not an accepted transport (see the
counterexample: a token that succeeds via the cookie is rejected 401 when
sent as `Authorization: Bearer`).  Amended form, proved from the source
model, for the GET session-check handlers of both modules: the response
depends on the request headers only through the `Cookie` entry — two
requests with equal `Cookie` entries and arbitrary (e.g. differing
`Authorization`) other headers are answered identically. -/
theorem claim_C8 (mac : String → String → List Nat) (k : String) (now : Nat)
    (db : Db) (hdrs1 hdrs2 : List (String × String))
    (hc : hdrs1.lookup ("Cookie") = hdrs2.lookup ("Cookie")) :
    Auth.handlerGet mac k now db hdrs1 = Auth.handlerGet mac k now db hdrs2 ∧
    UserAuth.handlerGet mac k now db hdrs1 =
      UserAuth.handlerGet mac k now db hdrs2 := by
  constructor
  · simp only [Auth.handlerGet]
    rw [hc]
  · simp only [UserAuth.handlerGet]
    rw [hc]

/-- C8, witness: in both modules, a request whose only header is
`Authorization: Bearer abc` is answered exactly like a request with no
headers at all. -/
theorem claim_C8_witness :
    Auth.handlerGet macDemo ("k") 5 demoDb
        [(("Authorization"), ("Bearer abc"))] =
      Auth.handlerGet macDemo ("k") 5 demoDb [] ∧
    UserAuth.handlerGet macDemo ("k") 5 demoDb
        [(("Authorization"), ("Bearer abc"))] =
      UserAuth.handlerGet macDemo ("k") 5 demoDb [] :=
  claim_C8 macDemo ("k") 5 demoDb [(("Authorization"), ("Bearer abc"))] [] rfl

/-- C8, counterexample to the claim as frozen, in both modules: one valid
freshly issued token — presented as `Authorization: Bearer <token>` it is
rejected with the 401, while the same token in the `auth_token` cookie
authenticates and returns the user. -/
theorem claim_C8_counterexample :
    Auth.handlerGet macDemo ("k") 1000 demoDb
        [(("Authorization"),
          ("Bearer ") ++ Auth.create_jwt_token macDemo ("k") 1000 demoClaims)] =
      Auth.error_response ("Invalid token") 401 ∧
    Auth.handlerGet macDemo ("k") 1000 demoDb
        [(("Cookie"),
          ("auth_token=") ++ Auth.create_jwt_token macDemo ("k") 1000 demoClaims)] =
      Auth.success_response (Auth.getSuccessBody demoRow) ∧
    UserAuth.handlerGet macDemo ("k") 1000 demoDb
        [(("Authorization"),
          ("Bearer ") ++ UserAuth.create_jwt_token macDemo ("k") 1000 demoClaims)] =
      UserAuth.error_response ("Invalid token") 401 ∧
    UserAuth.handlerGet macDemo ("k") 1000 demoDb
        [(("Cookie"),
          ("auth_token=") ++
            UserAuth.create_jwt_token macDemo ("k") 1000 demoClaims)] =
      UserAuth.success_response (UserAuth.getSuccessBody demoRow) :=
  ⟨rfl, rfl, rfl, rfl⟩

/-- C3: under the interleaving where both transactions run their `SELECT`
before either `UPDATE`, the read-then-write code of `handle_confirm_reset`
lets both concurrent requests consume the same reset token: both answer
the success response, where the claim demands that exactly one succeed. -/
theorem claim_C3 :
    (Auth.confirmRace (fun s => ("ha:") ++ s) (fun s => ("hb:") ++ s) demoDb
        ("tok") ("newpass1") ("newpass2") 1500).1 =
      Auth.success_response (msgBody ("Password reset successful")) ∧
    (Auth.confirmRace (fun s => ("ha:") ++ s) (fun s => ("hb:") ++ s) demoDb
        ("tok") ("newpass1") ("newpass2") 1500).2.1 =
      Auth.success_response (msgBody ("Password reset successful")) :=
  ⟨rfl, rfl⟩

/-- C4: sequential single use of a reset token.  When the store holds the
presented token unexpired on exactly the selected user's rows, a valid
`confirm_reset` answers success and writes the store with the new password
hash and both reset columns cleared on that user, and a second
`confirm_reset` presenting the same token against the written store is
answered `error_response('Invalid or expired token', 400)` and changes
nothing. -/
theorem claim_C4 (hashFn : String → String) (db : Db) (u : UserRow)
    (tok pw pw2 : String) (now : Nat)
    (hsel : Auth.confirmSelect db tok now = some u)
    (huniq : ∀ r ∈ db, r.reset_token = some tok → r.id = u.id)
    (htok : tok.isEmpty = false) (hpw : pw.isEmpty = false)
    (hlen : 6 ≤ pw.length) (hpw2 : pw2.isEmpty = false)
    (hlen2 : 6 ≤ pw2.length) :
    Auth.handle_confirm_reset hashFn db tok pw now =
      (Auth.success_response (msgBody ("Password reset successful")),
       Auth.confirmUpdate db u.id (hashFn pw)) ∧
    (∀ r ∈ Auth.confirmUpdate db u.id (hashFn pw), r.id = u.id →
      r.password_hash = hashFn pw ∧ r.reset_token = none ∧
        r.reset_token_expires = none) ∧
    Auth.handle_confirm_reset hashFn (Auth.confirmUpdate db u.id (hashFn pw))
        tok pw2 now =
      (Auth.error_response ("Invalid or expired token") 400,
       Auth.confirmUpdate db u.id (hashFn pw)) := by
  have hnotor : ¬(tok.isEmpty = true ∨ pw.isEmpty = true) := by
    rw [htok, hpw]; simp
  have hnotor2 : ¬(tok.isEmpty = true ∨ pw2.isEmpty = true) := by
    rw [htok, hpw2]; simp
  refine ⟨?_, ?_, ?_⟩
  · unfold Auth.handle_confirm_reset
    rw [if_neg hnotor, if_neg (by omega), hsel]
    rfl
  · intro r hr hid
    simp only [Auth.confirmUpdate, List.mem_map] at hr
    obtain ⟨r0, hr0, heq⟩ := hr
    by_cases h0 : r0.id = u.id
    · rw [if_pos h0] at heq
      rw [← heq]
      exact ⟨rfl, rfl, rfl⟩
    · rw [if_neg h0] at heq
      rw [← heq] at hid
      exact absurd hid h0
  · have hnone : Auth.confirmSelect (Auth.confirmUpdate db u.id (hashFn pw))
        tok now = none := by
      unfold Auth.confirmSelect
      rw [List.find?_eq_none]
      intro r hr
      simp only [Auth.confirmUpdate, List.mem_map] at hr
      obtain ⟨r0, hr0, heq⟩ := hr
      by_cases h0 : r0.id = u.id
      · rw [if_pos h0] at heq
        rw [← heq]
        simp
      · rw [if_neg h0] at heq
        rw [← heq]
        by_cases ht : r0.reset_token = some tok
        · exact absurd (huniq r0 hr0 ht) h0
        · simp [ht]
    unfold Auth.handle_confirm_reset
    rw [if_neg hnotor2, if_neg (by omega), hnone]
    rfl

/-- C4, witness: the one-user store holding the live token — the first
confirmation succeeds and clears the token, the second with the same token
is rejected unchanged. -/
theorem claim_C4_witness :
    Auth.confirmSelect demoDb ("tok") 1500 = some demoRow ∧
    (Auth.handle_confirm_reset (fun s => ("h:") ++ s) demoDb ("tok")
        ("newpass1") 1500 =
      (Auth.success_response (msgBody ("Password reset successful")),
       Auth.confirmUpdate demoDb demoRow.id (("h:") ++ ("newpass1"))) ∧
    (∀ r ∈ Auth.confirmUpdate demoDb demoRow.id (("h:") ++ ("newpass1")),
      r.id = demoRow.id →
      r.password_hash = ("h:") ++ ("newpass1") ∧ r.reset_token = none ∧
        r.reset_token_expires = none) ∧
    Auth.handle_confirm_reset (fun s => ("h:") ++ s)
        (Auth.confirmUpdate demoDb demoRow.id (("h:") ++ ("newpass1")))
        ("tok") ("anotherpass") 1500 =
      (Auth.error_response ("Invalid or expired token") 400,
       Auth.confirmUpdate demoDb demoRow.id (("h:") ++ ("newpass1")))) :=
  ⟨rfl, claim_C4 (fun s => ("h:") ++ s) demoDb demoRow ("tok") ("newpass1")
    ("anotherpass") 1500 rfl (by decide) rfl rfl (by decide) rfl (by decide)⟩

/-- C2: encode/decode round trip.  For a claim dict of JSON-plain distinct
keys, a MAC whose bytes are bytes, and a verification clock within the
7-day window, verifying the created token with the same secret returns the
claims with the added timestamps — `iat = now`, `exp = now + 604800`, all
other fields untouched — and verifying it under a secret whose MAC of the
signing input differs (the cryptographic content of `k' ≠ k`) fails. -/
theorem claim_C2 (mac : String → String → List Nat) (k k2 : String)
    (now now2 : Nat) (c : JObj)
    (hb : ∀ b ∈ mac k (Auth.signingInput now c), b < 256)
    (hp : plainObj c = true) (hnd : (objKeys c).Nodup)
    (hexp : now2 ≤ now + 7 * 24 * 3600)
    (hne : mac k2 (Auth.signingInput now c) ≠ mac k (Auth.signingInput now c)) :
    Auth.verify_jwt_token mac k now2 (Auth.create_jwt_token mac k now c) =
      some (Auth.addTimestamps now c) ∧
    dictGet (Auth.addTimestamps now c) ("iat") = some (JVal.jint (now : Int)) ∧
    dictGet (Auth.addTimestamps now c) ("exp") =
      some (JVal.jint ((now : Int) + 7 * 24 * 3600)) ∧
    (∀ key, key ≠ ("exp") → key ≠ ("iat") →
      dictGet (Auth.addTimestamps now c) key = dictGet c key) ∧
    Auth.verify_jwt_token mac k2 now2 (Auth.create_jwt_token mac k now c) =
      none := by
  refine ⟨verify_create mac k now now2 c hb hp hnd hexp, ?_,
    dictGet_exp_addTimestamps now c, ?_,
    verify_create_wrong mac k k2 now now2 c hb hne⟩
  · unfold Auth.addTimestamps
    exact dictGet_pySet_self _ _ _
  · intro key hke hki
    unfold Auth.addTimestamps
    rw [dictGet_pySet_ne _ _ hki, dictGet_pySet_ne _ _ hke]

/-- C2, witness: the round trip and the wrong-secret rejection on a
concrete claim dict, secrets and clocks. -/
theorem claim_C2_witness :
    macDemo ("other") (Auth.signingInput 1000 demoClaims) ≠
      macDemo ("secret") (Auth.signingInput 1000 demoClaims) ∧
    (Auth.verify_jwt_token macDemo ("secret") 2000
        (Auth.create_jwt_token macDemo ("secret") 1000 demoClaims) =
      some (Auth.addTimestamps 1000 demoClaims) ∧
    dictGet (Auth.addTimestamps 1000 demoClaims) ("iat") =
      some (JVal.jint ((1000 : Nat) : Int)) ∧
    dictGet (Auth.addTimestamps 1000 demoClaims) ("exp") =
      some (JVal.jint (((1000 : Nat) : Int) + 7 * 24 * 3600)) ∧
    (∀ key, key ≠ ("exp") → key ≠ ("iat") →
      dictGet (Auth.addTimestamps 1000 demoClaims) key =
        dictGet demoClaims key) ∧
    Auth.verify_jwt_token macDemo ("other") 2000
        (Auth.create_jwt_token macDemo ("secret") 1000 demoClaims) = none) :=
  ⟨by decide, claim_C2 macDemo ("secret") ("other") 1000 2000 demoClaims
    (by decide) (by decide) (by decide) (by decide) (by decide)⟩

end FinApp
